import Mathlib

/-!
Verification development for the mini-SAILS supply-chain network optimizer
(`optimization.py`, `utils.py`).

The pandas/PuLP program is shallowly embedded:

* data tables become lists of structures; an optional table column becomes an
  `Option ℚ` field (`none` = the column/value is absent);
* the MILP formulation becomes an explicit syntax: a `Var` inductive for the
  four variable families, affine expressions as lists of (coefficient, var)
  terms plus a constant, and constraints as `lhs REL rhs`;
* the geo-distance routine (`haversine`, trigonometric and hence real-valued)
  is an external pure utility; it is abstracted as a function parameter
  `distf` so that every statement is uniform in it;
* Python exceptions (pandas `KeyError` on a missing required column, the
  `TypeError` from comparing `None`) become `Except String`;
* the MILP solver is an external oracle: a function from a formulation to a
  status string and per-variable optional values (`varValue`).
-/

namespace Chariot

/-- A row of the nodes table (`nodes.csv`, indexed by `NodeID`).
`fixedCost`, `varCost`, `cap` model the optional columns
`FixedCost`, `VarCost_per_lb`, `Cap_Lbs_Per_Period`. -/
structure Node where
  id : String
  type : String
  lat : ℚ
  lon : ℚ
  fixedCost : Option ℚ := none
  varCost : Option ℚ := none
  cap : Option ℚ := none
deriving DecidableEq, Repr

/-- A row of the raw lanes table. `cost` and `transit` model the
`Cost_per_lb_mi` and `TransitDays` columns, which the builder reads with
`.loc` (a missing column raises `KeyError`); `duty` and `co2` model
`DutyRate` / `CO2_per_lb_mi`, read with `.get(…, 0)` (default 0). -/
structure RawLane where
  fromNode : String
  toNode : String
  cost : Option ℚ := none
  duty : Option ℚ := none
  co2 : Option ℚ := none
  transit : Option ℚ := none
deriving DecidableEq, Repr

/-- An enriched lane after `_prep_lanes`: the raw fields plus the derived
`Dist_mi` attribute. -/
structure Lane where
  fromNode : String
  toNode : String
  cost : Option ℚ := none
  duty : Option ℚ := none
  co2 : Option ℚ := none
  transit : Option ℚ := none
  dist : ℚ
deriving DecidableEq, Repr

/-- A row of the demand table. -/
structure DemandRow where
  customerID : String
  productID : String
  period : Int
  demandLbs : ℚ
deriving DecidableEq, Repr

/-- A row of the products table (indexed by `ProductID`).  `bomComponent`
models the optional `BOM_Component` column (`none` = column absent or NaN),
`ratio` the `InputLB_per_OutputLB` column. -/
structure Product where
  id : String
  bomComponent : Option String := none
  ratio : ℚ := 1
deriving DecidableEq, Repr

/-- `ROAD_FACTOR = 1.3` from `utils.py`. -/
def ROAD_FACTOR : ℚ := 13 / 10

/-- `_prep_lanes`: merge origin coordinates (pandas `merge` with
`right_index=True` is an inner join, so a lane whose `FromNode` is not in the
node index is dropped), merge destination coordinates likewise, compute
`Dist_mi = haversine(fr_lon, fr_lat, to_lon, to_lat) * ROAD_FACTOR`, and key
the result by `(FromNode, ToNode)` (`set_index`, which keeps duplicates). -/
def prep_lanes (nodes : List Node) (rawLanes : List RawLane)
    (distf : ℚ → ℚ → ℚ → ℚ → ℚ) : List Lane :=
  rawLanes.filterMap fun l =>
    match nodes.find? (fun n => n.id == l.fromNode),
          nodes.find? (fun n => n.id == l.toNode) with
    | some nf, some nt =>
        some { fromNode := l.fromNode, toNode := l.toNode,
               cost := l.cost, duty := l.duty, co2 := l.co2,
               transit := l.transit,
               dist := distf nf.lon nf.lat nt.lon nt.lat * ROAD_FACTOR }
    | _, _ => none

/-- Decision-variable names of the formulation: `Open_d`, `F_(i,j,p,t)`,
`Make_(pl,p,t)`, `Inv_(n,p,t)`. -/
inductive Var where
  | opn : String → Var
  | flow : String → String → String → Int → Var
  | make : String → String → Int → Var
  | inv : String → String → Int → Var
deriving DecidableEq, Repr

/-- A PuLP affine expression: a list of (coefficient, variable) terms plus a
constant. -/
structure Aff where
  terms : List (ℚ × Var)
  const : ℚ
deriving DecidableEq, Repr

/-- Constraint sense. -/
inductive Rel where
  | le : Rel
  | ge : Rel
  | eq : Rel
deriving DecidableEq, Repr

/-- A linear constraint `lhs REL rhs` as added by `mdl += …`. -/
structure Constr where
  lhs : Aff
  rel : Rel
  rhs : Aff
deriving DecidableEq, Repr

/-- The `LpProblem` after building: objective plus constraint list, in the
order the code adds them. -/
structure Formulation where
  objective : Aff
  constraints : List Constr
deriving DecidableEq, Repr

/-- The `dict(flow=…, open=…, inv=…, make=…)` of variable-dictionary keys
returned alongside the model. -/
structure VarDicts where
  flow : List (String × String × String × Int)
  opn : List String
  inv : List (String × String × Int)
  make : List (String × String × Int)
deriving DecidableEq, Repr

/-- First-occurrence deduplication, mirroring the key set of a Python dict
built from a key stream (and `set(…)` iteration made deterministic). -/
def dedupFirst {α : Type} [DecidableEq α] : List α → List α
  | [] => []
  | x :: xs => x :: (dedupFirst xs).filter (fun y => y != x)

/-- Insertion into a sorted list of periods. -/
def insertInt (x : Int) : List Int → List Int
  | [] => [x]
  | y :: ys => if x ≤ y then x :: y :: ys else y :: insertInt x ys

/-- Insertion sort, for `sorted(demand['Period'].unique())`. -/
def sortInts : List Int → List Int
  | [] => []
  | x :: xs => insertInt x (sortInts xs)

/-- Python `enumerate`. -/
def enumFrom {α : Type} (i : Nat) : List α → List (Nat × α)
  | [] => []
  | x :: xs => (i, x) :: enumFrom (i + 1) xs

/-- `N = nodes.index.tolist()`. -/
def nodeIds (nodes : List Node) : List String := nodes.map (·.id)

/-- `PLT = nodes.query('Type=="Plant"').index.tolist()`. -/
def plantIds (nodes : List Node) : List String :=
  (nodes.filter (fun n => n.type == "Plant")).map (·.id)

/-- `DC = nodes.query('Type=="DC"').index.tolist()`. -/
def dcIds (nodes : List Node) : List String :=
  (nodes.filter (fun n => n.type == "DC")).map (·.id)

/-- `P = products.index.tolist()`. -/
def productIds (products : List Product) : List String := products.map (·.id)

/-- `T = sorted(demand['Period'].unique())`. -/
def periods (demand : List DemandRow) : List Int :=
  sortInts (dedupFirst (demand.map (·.period)))

/-- `node_fixed(n)`: `FixedCost` when present, else 0. -/
def node_fixed (nodes : List Node) (n : String) : ℚ :=
  (((nodes.find? (fun nd => nd.id == n)).bind (·.fixedCost)).getD 0)

/-- `node_var(n)`: `VarCost_per_lb` when present, else 0. -/
def node_var (nodes : List Node) (n : String) : ℚ :=
  (((nodes.find? (fun nd => nd.id == n)).bind (·.varCost)).getD 0)

/-- `node_cap(n)`: `Cap_Lbs_Per_Period` when present, else `None`. -/
def node_cap (nodes : List Node) (n : String) : Option ℚ :=
  (nodes.find? (fun nd => nd.id == n)).bind (·.cap)

/-- `(i,j) in lanes.index`. -/
def hasLane (lanes : List Lane) (i j : String) : Bool :=
  lanes.any fun l => l.fromNode == i && l.toNode == j

/-- The lane-index key of an enriched lane. -/
def laneKey (l : Lane) : String × String := (l.fromNode, l.toNode)

/-- Effectful `map` over `Except`, written by structural recursion so that it
unfolds cleanly (models the eager evaluation of a Python generator feeding
`lpSum` / a comprehension). -/
def mapME {α β : Type} (f : α → Except String β) : List α → Except String (List β)
  | [] => Except.ok []
  | x :: xs =>
    match f x with
    | Except.ok y =>
      match mapME f xs with
      | Except.ok ys => Except.ok (y :: ys)
      | Except.error e => Except.error e
    | Except.error e => Except.error e

/-- Effectful `filter` over `Except` (models a comprehension whose predicate
may raise). -/
def filterME {α : Type} (f : α → Except String Bool) : List α → Except String (List α)
  | [] => Except.ok []
  | x :: xs =>
    match f x with
    | Except.ok b =>
      match filterME f xs with
      | Except.ok rest => Except.ok (if b then x :: rest else rest)
      | Except.error e => Except.error e
    | Except.error e => Except.error e

/-- `prod_cost = lpSum(make[pl,p,t]*node_var(pl) for pl in PLT for p in P
for t in T)`. -/
def prodCostTerms (nodes : List Node) (PLT P : List String) (T : List Int) :
    List (ℚ × Var) :=
  PLT.flatMap fun pl => P.flatMap fun p => T.map fun t =>
    (node_var nodes pl, Var.make pl p t)

/-- `wh_fixed = lpSum(open_dc[d]*node_fixed(d) for d in DC)`. -/
def whFixedTerms (nodes : List Node) (DCl : List String) : List (ℚ × Var) :=
  DCl.map fun d => (node_fixed nodes d, Var.opn d)

/-- `wh_hold = lpSum(inv[n,p,t]*node_var(n) for n in DC+PLT for p in P
for t in T)`. -/
def whHoldTerms (nodes : List Node) (DCl PLT P : List String) (T : List Int) :
    List (ℚ × Var) :=
  (DCl ++ PLT).flatMap fun n => P.flatMap fun p => T.map fun t =>
    (node_var nodes n, Var.inv n p t)

/-- The rows selected by the key `(i, j)` — what `lanes.loc[(i,j)]` sees. -/
def laneRows (lanes : List Lane) (i j : String) : List Lane :=
  lanes.filter fun l => l.fromNode == i && l.toNode == j

/-- `lanes.loc[(i,j), column]`: the scalar cell when the key selects exactly
one row.  A missing column raises `KeyError`; a duplicated key makes `.loc`
return a Series, on which the arithmetic the builder then performs fails, so
the build crashes rather than producing a formulation. -/
def laneLoc (lanes : List Lane) (i j : String) (field : Lane → Option ℚ)
    (missing : String) : Except String ℚ :=
  match laneRows lanes i j with
  | [l] =>
    match field l with
    | some q => Except.ok q
    | none => Except.error missing
  | [] => Except.error "KeyError: lane"
  | _ :: _ :: _ => Except.error "TypeError: non-scalar lane selection"

/-- Lookup in the `flow` variable dict: the key `(i, j, p, t)` exists exactly
when `(i, j)` is a lane-index key, `p` a product id, and `t` a period;
any other tuple raises `KeyError` (a Python dict access). -/
def flowLookup (lanes : List Lane) (P : List String) (T : List Int)
    (i j p : String) (t : Int) : Except String Var :=
  if hasLane lanes i j = true ∧ p ∈ P ∧ t ∈ T then
    Except.ok (Var.flow i j p t)
  else Except.error "KeyError: flow"

/-- Lookup in the `make` variable dict, keyed by `PLT × P × T`; any other
tuple — in particular a BOM parent id absent from the product table — raises
`KeyError`. -/
def makeLookup (PLT P : List String) (T : List Int) (pl p : String)
    (t : Int) : Except String Var :=
  if pl ∈ PLT ∧ p ∈ P ∧ t ∈ T then
    Except.ok (Var.make pl p t)
  else Except.error "KeyError: make"

/-- `trans_cost = lpSum(flow[i,j,p,t]*lanes.loc[(i,j),'Cost_per_lb_mi']
*lanes.loc[(i,j),'Dist_mi'] for (i,j) in lanes.index …)`: iterates the index
keys (with multiplicity) and reads the two rate cells with `.loc`, which
fails on a missing `Cost_per_lb_mi` column and on a duplicated key. -/
def transCostTerms (lanes : List Lane) (P : List String) (T : List Int) :
    Except String (List (ℚ × Var)) :=
  mapME
    (fun kpt : (String × String) × String × Int =>
      match laneLoc lanes kpt.1.1 kpt.1.2 (fun l => l.cost)
          "KeyError: Cost_per_lb_mi" with
      | Except.error e => Except.error e
      | Except.ok c =>
        match laneLoc lanes kpt.1.1 kpt.1.2 (fun l => some l.dist)
            "KeyError: Dist_mi" with
        | Except.error e => Except.error e
        | Except.ok d =>
            Except.ok (c * d, Var.flow kpt.1.1 kpt.1.2 kpt.2.1 kpt.2.2))
    ((lanes.map laneKey).flatMap fun ij =>
      P.flatMap fun p => T.map fun t => (ij, p, t))

/-- `duty_cost = lpSum(flow[i,j,p,t]*lanes.loc[(i,j)].get('DutyRate',0) …)`.
Read per row: whenever this sum is built the lane keys are unique (a
duplicated key has already crashed `trans_cost`, which is built first), and
on unique keys the row cell and the `.loc` cell coincide. -/
def dutyCostTerms (lanes : List Lane) (P : List String) (T : List Int) :
    List (ℚ × Var) :=
  lanes.flatMap fun l => P.flatMap fun p => T.map fun t =>
    (l.duty.getD 0, Var.flow l.fromNode l.toNode p t)

/-- `carbon = lpSum(flow[i,j,p,t]*lanes.loc[(i,j),'Dist_mi']
*lanes.loc[(i,j)].get('CO2_per_lb_mi',0)*carbon_price/2204.62 …)`.  Read per
row, sound for the same reason as `dutyCostTerms`. -/
def carbonCostTerms (lanes : List Lane) (P : List String) (T : List Int)
    (carbon_price : ℚ) : List (ℚ × Var) :=
  lanes.flatMap fun l => P.flatMap fun p => T.map fun t =>
    (l.dist * l.co2.getD 0 * carbon_price / (220462 / 100),
     Var.flow l.fromNode l.toNode p t)

/-- `mdl += open_dc[n] == 0`. -/
def opnFixConstr (n : String) : Constr :=
  ⟨⟨[(1, Var.opn n)], 0⟩, Rel.eq, ⟨[], 0⟩⟩

/-- `mdl += flow[i,j,p,t] == 0`. -/
def flowFixConstr (i j p : String) (t : Int) : Constr :=
  ⟨⟨[(1, Var.flow i j p t)], 0⟩, Rel.eq, ⟨[], 0⟩⟩

/-- The shutdown block: `for n in shut_nodes: if n in DC: mdl += open_dc[n]==0;
for (i,j) in lanes.index: if i==n or j==n: for p in P: for t in T:
mdl += flow[i,j,p,t]==0`. -/
def shutdownConstrs (DCl : List String) (lanes : List Lane) (P : List String)
    (T : List Int) (shut : List String) : List Constr :=
  shut.flatMap fun n =>
    (if n ∈ DCl then [opnFixConstr n] else []) ++
    lanes.flatMap fun l =>
      if l.fromNode == n || l.toNode == n then
        P.flatMap fun p => T.map fun t => flowFixConstr l.fromNode l.toNode p t
      else []

/-- `lpSum(flow[i,n,p,t] for i in N if (i,n) in lanes.index for p in P)` —
the inbound sum of a capacity constraint (all products). -/
def capInboundTerms (N : List String) (lanes : List Lane) (n : String)
    (P : List String) (t : Int) : List (ℚ × Var) :=
  (N.filter fun i => hasLane lanes i n).flatMap fun i => P.map fun p =>
    ((1 : ℚ), Var.flow i n p t)

/-- The capacity block: a constraint only when `node_cap(n)` is truthy
(`if cap:`), i.e. present and nonzero. -/
def capacityConstrs (nodes : List Node) (N : List String) (lanes : List Lane)
    (PLT DCl P : List String) (T : List Int) : List Constr :=
  (PLT ++ DCl).flatMap fun n =>
    match node_cap nodes n with
    | some c =>
        if c ≠ 0 then
          T.map fun t => ⟨⟨capInboundTerms N lanes n P t, 0⟩, Rel.le, ⟨[], c⟩⟩
        else []
    | none => []

/-- `lpSum(flow[i,c,p,t] for i in N if (i,c) in lanes.index)` — single-product
inflow into a node. -/
def inflowTerms (N : List String) (lanes : List Lane) (n p : String) (t : Int) :
    List (ℚ × Var) :=
  (N.filter fun i => hasLane lanes i n).map fun i => ((1 : ℚ), Var.flow i n p t)

/-- The demand-fulfilment block: `mdl += inflow >= dem` per demand row,
where `inflow = lpSum(flow[i,c,p,t] for i in N if (i,c) in lanes.index)` —
each `flow[i,c,p,t]` is a dict access that raises `KeyError` when the tuple
is not a key (e.g. an unknown product id, as soon as the customer has an
inbound lane). -/
def demandConstrs (N : List String) (lanes : List Lane) (P : List String)
    (T : List Int) (demand : List DemandRow) : Except String (List Constr) :=
  mapME
    (fun r : DemandRow =>
      match mapME
          (fun i =>
            match flowLookup lanes P T i r.customerID r.productID r.period with
            | Except.ok v => Except.ok ((1 : ℚ), v)
            | Except.error e => Except.error e)
          (N.filter fun i => hasLane lanes i r.customerID) with
      | Except.ok terms =>
          Except.ok (⟨⟨terms, 0⟩, Rel.ge, ⟨[], r.demandLbs⟩⟩ : Constr)
      | Except.error e => Except.error e)
    demand

/-- `lanes.loc[(i,c),'TransitDays']`: scalar for a unique key; a missing
`TransitDays` column raises `KeyError`, and a duplicated key yields a Series
and the constraint build crashes. -/
def laneTransit (lanes : List Lane) (i j : String) : Except String ℚ :=
  laneLoc lanes i j (fun l => l.transit) "KeyError: TransitDays"

/-- The service-time block: per demand row,
`mdl += lpSum(flow[i,c,p,t]*lanes.loc[(i,c),'TransitDays'] for i in N
if (i,c) in lanes.index) <= dem*service_days` — the `flow` dict access comes
first (failing on an unknown product id), then the `TransitDays` cell. -/
def serviceConstrs (N : List String) (lanes : List Lane) (P : List String)
    (T : List Int) (demand : List DemandRow) (service_days : ℚ) :
    Except String (List Constr) :=
  mapME
    (fun r : DemandRow =>
      match mapME
          (fun i =>
            match flowLookup lanes P T i r.customerID r.productID r.period with
            | Except.error e => Except.error e
            | Except.ok v =>
              match laneTransit lanes i r.customerID with
              | Except.ok tr => Except.ok (tr, v)
              | Except.error e => Except.error e)
          (N.filter fun i => hasLane lanes i r.customerID) with
      | Except.ok terms =>
          Except.ok
            (⟨⟨terms, 0⟩, Rel.le, ⟨[], r.demandLbs * service_days⟩⟩ : Constr)
      | Except.error e => Except.error e)
    demand

/-- `lpSum(flow[n,j,p,t] for j in N if (n,j) in lanes.index)` — single-product
outflow of a node. -/
def outflowTerms (N : List String) (lanes : List Lane) (n p : String)
    (t : Int) : List (ℚ × Var) :=
  (N.filter fun j => hasLane lanes n j).map fun j => ((1 : ℚ), Var.flow n j p t)

/-- The one mass-balance equality for `(n, p, T[ti])`:
`inflow + inv_prev == outflow (+ make[n,p,t] if n in PLT) + inv[n,p,t]`,
with `inv_prev = inv[n,p,T[ti-1]] if ti>0 else 0`. -/
def massConstr (N : List String) (lanes : List Lane) (PLT : List String)
    (n p : String) (T : List Int) (ti : Nat) (t : Int) : Constr :=
  ⟨⟨inflowTerms N lanes n p t ++
      (if ti = 0 then [] else [((1 : ℚ), Var.inv n p (T.getD (ti - 1) 0))]), 0⟩,
   Rel.eq,
   ⟨outflowTerms N lanes n p t ++
      (if n ∈ PLT then [((1 : ℚ), Var.make n p t)] else []) ++
      [((1 : ℚ), Var.inv n p t)], 0⟩⟩

/-- The mass-balance block: `for n in DC+PLT: for p in P:
for ti,t in enumerate(T): …`. -/
def massConstrs (N : List String) (lanes : List Lane) (DCl PLT P : List String)
    (T : List Int) : List Constr :=
  (DCl ++ PLT).flatMap fun n => P.flatMap fun p =>
    (enumFrom 0 T).map fun tit => massConstr N lanes PLT n p T tit.1 tit.2

/-- The BOM block: for each product with a (non-null) `BOM_Component`,
`mdl += make[pl,parent,t]*ratio >= make[pl,comp,t]` for every plant and
period.  `make[pl,parent,t]` is a dict access: a parent id absent from the
product table raises `KeyError`; `make[pl,comp,t]` always exists (`comp`
ranges over the product index). -/
def bomConstrs (products : List Product) (PLT P : List String)
    (T : List Int) : Except String (List Constr) :=
  mapME
    (fun x : Product × String × String × Int =>
      match makeLookup PLT P T x.2.2.1 x.2.1 x.2.2.2 with
      | Except.error e => Except.error e
      | Except.ok vparent =>
          Except.ok (⟨⟨[(x.1.ratio, vparent)], 0⟩, Rel.ge,
            ⟨[((1 : ℚ), Var.make x.2.2.1 x.1.id x.2.2.2)], 0⟩⟩ : Constr))
    (products.flatMap fun comp =>
      match comp.bomComponent with
      | some parent => PLT.flatMap fun pl => T.map fun t => (comp, parent, pl, t)
      | none => [])

/-- Keys of `pulp.LpVariable.dicts('F', ((i,j,p,t) for i,j in lanes.index
for p in P for t in T))` — a Python dict keeps one entry per distinct key. -/
def flowVarKeys (lanes : List Lane) (P : List String) (T : List Int) :
    List (String × String × String × Int) :=
  (dedupFirst (lanes.map laneKey)).flatMap fun ij =>
    P.flatMap fun p => T.map fun t => (ij.1, ij.2, p, t)

/-- Keys of the `Inv` variable dict (`n in DC+PLT`). -/
def invVarKeys (DCl PLT P : List String) (T : List Int) :
    List (String × String × Int) :=
  (DCl ++ PLT).flatMap fun n => P.flatMap fun p => T.map fun t => (n, p, t)

/-- Keys of the `Make` variable dict (`pl in PLT`). -/
def makeVarKeys (PLT P : List String) (T : List Int) :
    List (String × String × Int) :=
  PLT.flatMap fun pl => P.flatMap fun p => T.map fun t => (pl, p, t)

/-- `build_model(nodes, demand, lanes, products, service_days=7,
safety_stock_pct=0.10, carbon_price=0.0, shut_nodes=None)`: returns the
`LpProblem` together with the variable dictionaries.  The safety-stock
fraction is accepted but never read by the body, exactly as in the source. -/
def build_model (distf : ℚ → ℚ → ℚ → ℚ → ℚ) (nodes : List Node)
    (demand : List DemandRow) (rawLanes : List RawLane)
    (products : List Product) (service_days : ℚ) (safety_stock_pct : ℚ)
    (carbon_price : ℚ) (shut_nodes : List String) :
    Except String (Formulation × VarDicts) :=
  let shut := dedupFirst shut_nodes
  let lanes := prep_lanes nodes rawLanes distf
  let N := nodeIds nodes
  let PLT := plantIds nodes
  let DCl := dcIds nodes
  let P := productIds products
  let T := periods demand
  let varDicts : VarDicts :=
    { flow := flowVarKeys lanes P T,
      opn := DCl,
      inv := invVarKeys DCl PLT P T,
      make := makeVarKeys PLT P T }
  match transCostTerms lanes P T with
  | Except.error e => Except.error e
  | Except.ok tc =>
    match demandConstrs N lanes P T demand with
    | Except.error e => Except.error e
    | Except.ok dm =>
      match serviceConstrs N lanes P T demand service_days with
      | Except.error e => Except.error e
      | Except.ok svc =>
        match bomConstrs products PLT P T with
        | Except.error e => Except.error e
        | Except.ok bm =>
          Except.ok
            (⟨⟨prodCostTerms nodes PLT P T ++ whFixedTerms nodes DCl ++
                whHoldTerms nodes DCl PLT P T ++ tc ++
                dutyCostTerms lanes P T ++
                carbonCostTerms lanes P T carbon_price, 0⟩,
              shutdownConstrs DCl lanes P T shut ++
              capacityConstrs nodes N lanes PLT DCl P T ++
              dm ++
              svc ++
              massConstrs N lanes DCl PLT P T ++
              bm⟩,
             varDicts)

/-- A row of the extracted flow table. -/
structure FlowRow where
  From : String
  To : String
  Product : String
  Period : Int
  FlowLbs : ℚ
deriving DecidableEq, Repr

/-- The structured result `dict(flow=…, open_dc=…, objective=…)`. -/
structure ExtractResult where
  flow : List FlowRow
  open_dc : List String
  objective : ℚ
deriving DecidableEq, Repr

/-- The flow table: `for (i,j,p,t),v in var['flow'].items():
if v.varValue and v.varValue>1e-6: rows.append(…)` — a value of `None` or
`0.0` is falsy and skipped. -/
def flowRows (vals : Var → Option ℚ)
    (keys : List (String × String × String × Int)) : List FlowRow :=
  keys.filterMap fun k =>
    match vals (Var.flow k.1 k.2.1 k.2.2.1 k.2.2.2) with
    | some v =>
        if v ≠ 0 ∧ v > 1 / 1000000 then
          some ⟨k.1, k.2.1, k.2.2.1, k.2.2.2, v⟩
        else none
    | none => none

/-- `pulp.value(mdl.objective)`: sum of coefficient times `varValue` plus the
constant; a `None` value raises `TypeError`. -/
def affValue (vals : Var → Option ℚ) (a : Aff) : Except String ℚ :=
  match mapME
      (fun cv : ℚ × Var =>
        match vals cv.2 with
        | some v => Except.ok (cv.1 * v)
        | none => Except.error "TypeError")
      a.terms with
  | Except.ok xs => Except.ok (xs.sum + a.const)
  | Except.error e => Except.error e

/-- `solve_and_extract`: build, solve via the external oracle, and on an
`Optimal` status extract flow table, open-DC list
(`[d for d,v in var['open'].items() if v.varValue>0.5]`, where comparing
`None` with `0.5` raises `TypeError`), and objective value; on any other
status return `(status, None)`. -/
def solve_and_extract (solver : Formulation → String × (Var → Option ℚ))
    (distf : ℚ → ℚ → ℚ → ℚ → ℚ) (nodes : List Node) (demand : List DemandRow)
    (rawLanes : List RawLane) (products : List Product) (service_days : ℚ)
    (safety_stock_pct : ℚ) (carbon_price : ℚ) (shut_nodes : List String) :
    Except String (String × Option ExtractResult) :=
  match build_model distf nodes demand rawLanes products service_days
      safety_stock_pct carbon_price shut_nodes with
  | Except.error e => Except.error e
  | Except.ok mv =>
    let status := (solver mv.1).1
    let vals := (solver mv.1).2
    if status = "Optimal" then
      match filterME
          (fun d =>
            match vals (Var.opn d) with
            | some v => Except.ok (decide (v > 1 / 2))
            | none => Except.error "TypeError")
          mv.2.opn with
      | Except.error e => Except.error e
      | Except.ok od =>
        match affValue vals mv.1.objective with
        | Except.error e => Except.error e
        | Except.ok obj =>
          Except.ok ("Optimal", some ⟨flowRows vals mv.2.flow, od, obj⟩)
    else
      Except.ok (status, none)

/-- Value of an affine expression under a total assignment. -/
def evalTerms (σ : Var → ℚ) (ts : List (ℚ × Var)) : ℚ :=
  (ts.map fun cv => cv.1 * σ cv.2).sum

/-- Value of an `Aff` under a total assignment. -/
def Aff.evalA (a : Aff) (σ : Var → ℚ) : ℚ := evalTerms σ a.terms + a.const

/-- Whether an assignment satisfies a constraint. -/
def Constr.holdsB (c : Constr) (σ : Var → ℚ) : Bool :=
  match c.rel with
  | Rel.le => decide (c.lhs.evalA σ ≤ c.rhs.evalA σ)
  | Rel.ge => decide (c.rhs.evalA σ ≤ c.lhs.evalA σ)
  | Rel.eq => decide (c.lhs.evalA σ = c.rhs.evalA σ)

/-- Whether an affine expression mentions a variable. -/
def Aff.mentionsVar (a : Aff) (v : Var) : Bool :=
  a.terms.any fun cv => decide (cv.2 = v)

/-- Whether a constraint mentions a variable. -/
def Constr.mentionsVar (c : Constr) (v : Var) : Bool :=
  c.lhs.mentionsVar v || c.rhs.mentionsVar v

/-- `Except.isOk` written out. -/
def exceptOk {α : Type} (e : Except String α) : Bool :=
  match e with
  | Except.ok _ => true
  | Except.error _ => false

/-! ### General lemmas about the embedding -/

theorem mem_dedupFirst {α : Type} [DecidableEq α] (l : List α) (x : α) :
    x ∈ dedupFirst l ↔ x ∈ l := by
  induction l with
  | nil => simp [dedupFirst]
  | cons a as ih =>
    simp only [dedupFirst, List.mem_cons, List.mem_filter, bne_iff_ne, ne_eq]
    constructor
    · rintro (rfl | ⟨hx, _⟩)
      · exact Or.inl rfl
      · exact Or.inr (ih.mp hx)
    · rintro (rfl | hx)
      · exact Or.inl rfl
      · by_cases hax : x = a
        · exact Or.inl hax
        · exact Or.inr ⟨ih.mpr hx, hax⟩

theorem mapME_ok_mem {α β : Type} (f : α → Except String β) :
    ∀ (xs : List α) (ys : List β), mapME f xs = Except.ok ys →
      ∀ y ∈ ys, ∃ x ∈ xs, f x = Except.ok y := by
  intro xs
  induction xs with
  | nil =>
    intro ys h y hy
    simp only [mapME, Except.ok.injEq] at h
    subst h; simp at hy
  | cons a as ih =>
    intro ys h y hy
    simp only [mapME] at h
    cases hfa : f a with
    | error e => rw [hfa] at h; exact absurd h (by simp)
    | ok b =>
      rw [hfa] at h
      cases hrest : mapME f as with
      | error e => rw [hrest] at h; exact absurd h (by simp)
      | ok bs =>
        rw [hrest] at h
        simp only [Except.ok.injEq] at h
        subst h
        rcases List.mem_cons.mp hy with rfl | hybs
        · exact ⟨a, List.mem_cons_self a as, hfa⟩
        · obtain ⟨x, hx, hfx⟩ := ih bs hrest y hybs
          exact ⟨x, List.mem_cons_of_mem a hx, hfx⟩

theorem mapME_ok_of_forall {α β : Type} (f : α → Except String β) :
    ∀ (xs : List α), (∀ x ∈ xs, ∃ y, f x = Except.ok y) →
      ∃ ys, mapME f xs = Except.ok ys := by
  intro xs
  induction xs with
  | nil => intro _; exact ⟨[], rfl⟩
  | cons a as ih =>
    intro h
    obtain ⟨b, hb⟩ := h a (List.mem_cons_self a as)
    obtain ⟨bs, hbs⟩ := ih fun x hx => h x (List.mem_cons_of_mem a hx)
    exact ⟨b :: bs, by simp [mapME, hb, hbs]⟩

theorem filterME_pure {α : Type} (g : α → Bool) :
    ∀ l : List α, filterME (fun a => Except.ok (g a)) l = Except.ok (l.filter g) := by
  intro l
  induction l with
  | nil => rfl
  | cons a as ih =>
    simp only [filterME, ih, List.filter_cons]

theorem mem_filterME {α : Type} (f : α → Except String Bool) :
    ∀ (xs ys : List α), filterME f xs = Except.ok ys →
      ∀ y ∈ ys, y ∈ xs ∧ f y = Except.ok true := by
  intro xs
  induction xs with
  | nil =>
    intro ys h y hy
    simp only [filterME, Except.ok.injEq] at h
    subst h; simp at hy
  | cons a as ih =>
    intro ys h y hy
    simp only [filterME] at h
    cases hfa : f a with
    | error e => rw [hfa] at h; exact absurd h (by simp)
    | ok b =>
      rw [hfa] at h
      cases hrest : filterME f as with
      | error e => rw [hrest] at h; exact absurd h (by simp)
      | ok rest =>
        rw [hrest] at h
        simp only [Except.ok.injEq] at h
        subst h
        cases b with
        | true =>
          rcases List.mem_cons.mp hy with heq | hyr
          · subst heq; exact ⟨List.mem_cons_self _ _, hfa⟩
          · obtain ⟨h1, h2⟩ := ih rest hrest y hyr
            exact ⟨List.mem_cons_of_mem a h1, h2⟩
        | false =>
          simp only [if_neg Bool.false_ne_true] at hy
          obtain ⟨h1, h2⟩ := ih rest hrest y hy
          exact ⟨List.mem_cons_of_mem a h1, h2⟩

/-- Decomposing a successful `build_model` run into its pieces. -/
theorem build_model_ok_decomp (distf : ℚ → ℚ → ℚ → ℚ → ℚ) (nodes : List Node)
    (demand : List DemandRow) (rawLanes : List RawLane) (products : List Product)
    (service_days safety_stock_pct carbon_price : ℚ) (shut_nodes : List String)
    (mv : Formulation × VarDicts)
    (h : build_model distf nodes demand rawLanes products service_days
      safety_stock_pct carbon_price shut_nodes = Except.ok mv) :
    ∃ tc dm svc bm,
      transCostTerms (prep_lanes nodes rawLanes distf) (productIds products)
        (periods demand) = Except.ok tc ∧
      demandConstrs (nodeIds nodes) (prep_lanes nodes rawLanes distf)
        (productIds products) (periods demand) demand = Except.ok dm ∧
      serviceConstrs (nodeIds nodes) (prep_lanes nodes rawLanes distf)
        (productIds products) (periods demand) demand service_days =
        Except.ok svc ∧
      bomConstrs products (plantIds nodes) (productIds products)
        (periods demand) = Except.ok bm ∧
      mv.1.objective =
        ⟨prodCostTerms nodes (plantIds nodes) (productIds products) (periods demand) ++
         whFixedTerms nodes (dcIds nodes) ++
         whHoldTerms nodes (dcIds nodes) (plantIds nodes) (productIds products) (periods demand) ++
         tc ++
         dutyCostTerms (prep_lanes nodes rawLanes distf) (productIds products) (periods demand) ++
         carbonCostTerms (prep_lanes nodes rawLanes distf) (productIds products) (periods demand) carbon_price, 0⟩ ∧
      mv.1.constraints =
        shutdownConstrs (dcIds nodes) (prep_lanes nodes rawLanes distf) (productIds products) (periods demand) (dedupFirst shut_nodes) ++
        capacityConstrs nodes (nodeIds nodes) (prep_lanes nodes rawLanes distf) (plantIds nodes) (dcIds nodes) (productIds products) (periods demand) ++
        dm ++
        svc ++
        massConstrs (nodeIds nodes) (prep_lanes nodes rawLanes distf) (dcIds nodes) (plantIds nodes) (productIds products) (periods demand) ++
        bm ∧
      mv.2 =
        ⟨flowVarKeys (prep_lanes nodes rawLanes distf) (productIds products) (periods demand),
         dcIds nodes,
         invVarKeys (dcIds nodes) (plantIds nodes) (productIds products) (periods demand),
         makeVarKeys (plantIds nodes) (productIds products) (periods demand)⟩ := by
  unfold build_model at h
  dsimp only at h
  split at h
  · exact absurd h (by simp)
  · split at h
    · exact absurd h (by simp)
    · split at h
      · exact absurd h (by simp)
      · split at h
        · exact absurd h (by simp)
        · rename_i x1 tcv htc x2 dmv hdm x3 svcv hsvc x4 bmv hbm
          injection h with h2
          exact ⟨tcv, dmv, svcv, bmv, htc, hdm, hsvc, hbm, by rw [← h2],
            by rw [← h2], by rw [← h2]⟩

/-- A constraint does not mention a variable when neither side's term list
carries it. -/
theorem mentionsVar_eq_false (c : Constr) (v : Var)
    (hl : ∀ cv ∈ c.lhs.terms, cv.2 ≠ v) (hr : ∀ cv ∈ c.rhs.terms, cv.2 ≠ v) :
    c.mentionsVar v = false := by
  simp only [Constr.mentionsVar, Aff.mentionsVar, Bool.or_eq_false_iff]
  constructor <;> rw [List.any_eq_false] <;> intro cv hcv <;> simp only [decide_eq_true_eq]
  · exact hl cv hcv
  · exact hr cv hcv

theorem prodCostTerms_no_opn (nodes : List Node) (PLT P : List String)
    (T : List Int) (cv : ℚ × Var) (h : cv ∈ prodCostTerms nodes PLT P T)
    (d : String) : cv.2 ≠ Var.opn d := by
  simp only [prodCostTerms, List.mem_flatMap, List.mem_map] at h
  obtain ⟨pl, -, p, -, t, -, rfl⟩ := h
  simp

theorem whHoldTerms_no_opn (nodes : List Node) (DCl PLT P : List String)
    (T : List Int) (cv : ℚ × Var) (h : cv ∈ whHoldTerms nodes DCl PLT P T)
    (d : String) : cv.2 ≠ Var.opn d := by
  simp only [whHoldTerms, List.mem_flatMap, List.mem_map] at h
  obtain ⟨n, -, p, -, t, -, rfl⟩ := h
  simp

theorem dutyCostTerms_no_opn (lanes : List Lane) (P : List String)
    (T : List Int) (cv : ℚ × Var) (h : cv ∈ dutyCostTerms lanes P T)
    (d : String) : cv.2 ≠ Var.opn d := by
  simp only [dutyCostTerms, List.mem_flatMap, List.mem_map] at h
  obtain ⟨l, -, p, -, t, -, rfl⟩ := h
  simp

theorem carbonCostTerms_no_opn (lanes : List Lane) (P : List String)
    (T : List Int) (carbon_price : ℚ) (cv : ℚ × Var)
    (h : cv ∈ carbonCostTerms lanes P T carbon_price) (d : String) :
    cv.2 ≠ Var.opn d := by
  simp only [carbonCostTerms, List.mem_flatMap, List.mem_map] at h
  obtain ⟨l, -, p, -, t, -, rfl⟩ := h
  simp

theorem flowLookup_ok (lanes : List Lane) (P : List String) (T : List Int)
    (i j p : String) (t : Int) (v : Var)
    (h : flowLookup lanes P T i j p t = Except.ok v) :
    v = Var.flow i j p t ∧ hasLane lanes i j = true ∧ p ∈ P ∧ t ∈ T := by
  unfold flowLookup at h
  split at h
  · rename_i hcond
    simp only [Except.ok.injEq] at h
    exact ⟨h.symm, hcond.1, hcond.2.1, hcond.2.2⟩
  · exact absurd h (by simp)

theorem makeLookup_ok (PLT P : List String) (T : List Int) (pl p : String)
    (t : Int) (v : Var) (h : makeLookup PLT P T pl p t = Except.ok v) :
    v = Var.make pl p t ∧ pl ∈ PLT ∧ p ∈ P ∧ t ∈ T := by
  unfold makeLookup at h
  split at h
  · rename_i hcond
    simp only [Except.ok.injEq] at h
    exact ⟨h.symm, hcond.1, hcond.2.1, hcond.2.2⟩
  · exact absurd h (by simp)

theorem laneLoc_ok (lanes : List Lane) (i j : String)
    (field : Lane → Option ℚ) (missing : String) (q : ℚ)
    (h : laneLoc lanes i j field missing = Except.ok q) :
    ∃ l, laneRows lanes i j = [l] ∧ field l = some q := by
  unfold laneLoc at h
  cases hrows : laneRows lanes i j with
  | nil => rw [hrows] at h; exact absurd h (by simp)
  | cons l rest =>
    cases rest with
    | nil =>
      rw [hrows] at h
      dsimp only at h
      refine ⟨l, rfl, ?_⟩
      cases hfl : field l with
      | some q2 =>
        rw [hfl] at h
        simp only [Except.ok.injEq] at h
        rw [h]
      | none =>
        rw [hfl] at h
        exact absurd h (by simp)
    | cons l2 rest2 =>
      rw [hrows] at h
      exact absurd h (by simp)

theorem transCostTerms_no_opn (lanes : List Lane) (P : List String)
    (T : List Int) (tc : List (ℚ × Var))
    (h : transCostTerms lanes P T = Except.ok tc) (cv : ℚ × Var)
    (hcv : cv ∈ tc) (d : String) : cv.2 ≠ Var.opn d := by
  obtain ⟨kpt, -, hf⟩ := mapME_ok_mem _ _ _ h cv hcv
  cases h1 : laneLoc lanes kpt.1.1 kpt.1.2 (fun l => l.cost)
      "KeyError: Cost_per_lb_mi" with
  | error e => rw [h1] at hf; exact absurd hf (by simp)
  | ok c =>
    rw [h1] at hf
    cases h2 : laneLoc lanes kpt.1.1 kpt.1.2 (fun l => some l.dist)
        "KeyError: Dist_mi" with
    | error e => rw [h2] at hf; exact absurd hf (by simp)
    | ok dd =>
      rw [h2] at hf
      simp only [Except.ok.injEq] at hf
      subst hf
      simp

theorem whFixedTerms_shape (nodes : List Node) (DCl : List String)
    (cv : ℚ × Var) (h : cv ∈ whFixedTerms nodes DCl) :
    ∃ d ∈ DCl, cv = (node_fixed nodes d, Var.opn d) := by
  simp only [whFixedTerms, List.mem_map] at h
  obtain ⟨d, hd, rfl⟩ := h
  exact ⟨d, hd, rfl⟩

theorem capInboundTerms_no_opn (N : List String) (lanes : List Lane)
    (n : String) (P : List String) (t : Int) (cv : ℚ × Var)
    (h : cv ∈ capInboundTerms N lanes n P t) (d : String) :
    cv.2 ≠ Var.opn d := by
  simp only [capInboundTerms, List.mem_flatMap, List.mem_map] at h
  obtain ⟨i, -, p, -, rfl⟩ := h
  simp

theorem inflowTerms_no_opn (N : List String) (lanes : List Lane) (n p : String)
    (t : Int) (cv : ℚ × Var) (h : cv ∈ inflowTerms N lanes n p t)
    (d : String) : cv.2 ≠ Var.opn d := by
  simp only [inflowTerms, List.mem_map] at h
  obtain ⟨i, -, rfl⟩ := h
  simp

theorem outflowTerms_no_opn (N : List String) (lanes : List Lane) (n p : String)
    (t : Int) (cv : ℚ × Var) (h : cv ∈ outflowTerms N lanes n p t)
    (d : String) : cv.2 ≠ Var.opn d := by
  simp only [outflowTerms, List.mem_map] at h
  obtain ⟨j, -, rfl⟩ := h
  simp

theorem capacityConstrs_no_opn (nodes : List Node) (N : List String)
    (lanes : List Lane) (PLT DCl P : List String) (T : List Int) (c : Constr)
    (h : c ∈ capacityConstrs nodes N lanes PLT DCl P T) (d : String) :
    c.mentionsVar (Var.opn d) = false := by
  simp only [capacityConstrs, List.mem_flatMap] at h
  obtain ⟨n, -, hc⟩ := h
  cases hcap : node_cap nodes n with
  | none => rw [hcap] at hc; simp at hc
  | some cap =>
    rw [hcap] at hc
    dsimp only at hc
    by_cases hz : cap ≠ 0
    · rw [if_pos hz] at hc
      simp only [List.mem_map] at hc
      obtain ⟨t, -, rfl⟩ := hc
      exact mentionsVar_eq_false _ _
        (fun cv hcv => capInboundTerms_no_opn N lanes n P t cv hcv d)
        (fun cv hcv => by simp at hcv)
    · rw [if_neg hz] at hc; simp at hc

theorem demandConstrs_no_opn (N : List String) (lanes : List Lane)
    (P : List String) (T : List Int) (demand : List DemandRow)
    (dm : List Constr) (h : demandConstrs N lanes P T demand = Except.ok dm)
    (c : Constr) (hc : c ∈ dm) (d : String) :
    c.mentionsVar (Var.opn d) = false := by
  obtain ⟨r, -, hf⟩ := mapME_ok_mem _ _ _ h c hc
  cases hterms : mapME
      (fun i =>
        match flowLookup lanes P T i r.customerID r.productID r.period with
        | Except.ok v => Except.ok ((1 : ℚ), v)
        | Except.error e => Except.error e)
      (N.filter fun i => hasLane lanes i r.customerID) with
  | error e => rw [hterms] at hf; exact absurd hf (by simp)
  | ok terms =>
    rw [hterms] at hf
    simp only [Except.ok.injEq] at hf
    subst hf
    refine mentionsVar_eq_false _ _ (fun cv hcv => ?_)
      (fun cv hcv => by simp at hcv)
    obtain ⟨i, -, hfi⟩ := mapME_ok_mem _ _ _ hterms cv hcv
    cases hfl : flowLookup lanes P T i r.customerID r.productID r.period with
    | error e => rw [hfl] at hfi; exact absurd hfi (by simp)
    | ok v =>
      rw [hfl] at hfi
      simp only [Except.ok.injEq] at hfi
      subst hfi
      obtain ⟨hv, -⟩ := flowLookup_ok _ _ _ _ _ _ _ _ hfl
      simp [hv]

theorem serviceConstrs_no_opn (N : List String) (lanes : List Lane)
    (P : List String) (T : List Int) (demand : List DemandRow)
    (service_days : ℚ) (svc : List Constr)
    (h : serviceConstrs N lanes P T demand service_days = Except.ok svc)
    (c : Constr) (hc : c ∈ svc) (d : String) :
    c.mentionsVar (Var.opn d) = false := by
  obtain ⟨r, -, hf⟩ := mapME_ok_mem _ _ _ h c hc
  cases hterms : mapME
      (fun i =>
        match flowLookup lanes P T i r.customerID r.productID r.period with
        | Except.error e => Except.error e
        | Except.ok v =>
          match laneTransit lanes i r.customerID with
          | Except.ok tr => Except.ok (tr, v)
          | Except.error e => Except.error e)
      (N.filter fun i => hasLane lanes i r.customerID) with
  | error e => rw [hterms] at hf; exact absurd hf (by simp)
  | ok terms =>
    rw [hterms] at hf
    simp only [Except.ok.injEq] at hf
    subst hf
    refine mentionsVar_eq_false _ _ (fun cv hcv => ?_)
      (fun cv hcv => by simp at hcv)
    obtain ⟨i, -, hfi⟩ := mapME_ok_mem _ _ _ hterms cv hcv
    cases hfl : flowLookup lanes P T i r.customerID r.productID r.period with
    | error e => rw [hfl] at hfi; exact absurd hfi (by simp)
    | ok v =>
      rw [hfl] at hfi
      cases htr : laneTransit lanes i r.customerID with
      | error e => rw [htr] at hfi; exact absurd hfi (by simp)
      | ok tr =>
        rw [htr] at hfi
        simp only [Except.ok.injEq] at hfi
        subst hfi
        obtain ⟨hv, -⟩ := flowLookup_ok _ _ _ _ _ _ _ _ hfl
        simp [hv]

theorem massConstrs_no_opn (N : List String) (lanes : List Lane)
    (DCl PLT P : List String) (T : List Int) (c : Constr)
    (h : c ∈ massConstrs N lanes DCl PLT P T) (d : String) :
    c.mentionsVar (Var.opn d) = false := by
  simp only [massConstrs, List.mem_flatMap, List.mem_map] at h
  obtain ⟨n, -, p, -, tit, -, rfl⟩ := h
  refine mentionsVar_eq_false _ _ (fun cv hcv => ?_) (fun cv hcv => ?_)
  · simp only [massConstr, List.mem_append] at hcv
    rcases hcv with hcv | hcv
    · exact inflowTerms_no_opn N lanes n p tit.2 cv hcv d
    · by_cases h0 : tit.1 = 0
      · rw [if_pos h0] at hcv; simp at hcv
      · rw [if_neg h0] at hcv
        simp only [List.mem_singleton] at hcv
        subst hcv; simp
  · simp only [massConstr, List.mem_append] at hcv
    rcases hcv with (hcv | hcv) | hcv
    · exact outflowTerms_no_opn N lanes n p tit.2 cv hcv d
    · by_cases hplt : n ∈ PLT
      · rw [if_pos hplt] at hcv
        simp only [List.mem_singleton] at hcv
        subst hcv; simp
      · rw [if_neg hplt] at hcv; simp at hcv
    · simp only [List.mem_singleton] at hcv
      subst hcv; simp

theorem bomConstrs_no_opn (products : List Product) (PLT P : List String)
    (T : List Int) (bm : List Constr)
    (h : bomConstrs products PLT P T = Except.ok bm) (c : Constr)
    (hc : c ∈ bm) (d : String) : c.mentionsVar (Var.opn d) = false := by
  obtain ⟨x, -, hf⟩ := mapME_ok_mem _ _ _ h c hc
  cases hmk : makeLookup PLT P T x.2.2.1 x.2.1 x.2.2.2 with
  | error e => rw [hmk] at hf; exact absurd hf (by simp)
  | ok vparent =>
    rw [hmk] at hf
    simp only [Except.ok.injEq] at hf
    subst hf
    obtain ⟨hv, -⟩ := makeLookup_ok _ _ _ _ _ _ _ hmk
    refine mentionsVar_eq_false _ _ (fun cv hcv => ?_) (fun cv hcv => ?_)
    · simp only [List.mem_singleton] at hcv
      subst hcv
      simp [hv]
    · simp only [List.mem_singleton] at hcv
      subst hcv
      simp

theorem shutdownConstrs_shape (DCl : List String) (lanes : List Lane)
    (P : List String) (T : List Int) (shut : List String) (c : Constr)
    (h : c ∈ shutdownConstrs DCl lanes P T shut) :
    (∃ n ∈ shut, n ∈ DCl ∧ c = opnFixConstr n) ∨
    (∃ i j p t, c = flowFixConstr i j p t) := by
  simp only [shutdownConstrs, List.mem_flatMap, List.mem_append] at h
  obtain ⟨n, hn, hmem⟩ := h
  rcases hmem with hfix | hflow
  · by_cases hdc : n ∈ DCl
    · rw [if_pos hdc] at hfix
      simp only [List.mem_singleton] at hfix
      subst hfix
      exact Or.inl ⟨n, hn, hdc, rfl⟩
    · rw [if_neg hdc] at hfix; simp at hfix
  · obtain ⟨l, -, hc⟩ := hflow
    by_cases hcond : (l.fromNode == n || l.toNode == n) = true
    · rw [if_pos hcond] at hc
      simp only [List.mem_flatMap, List.mem_map] at hc
      obtain ⟨p, -, t, -, rfl⟩ := hc
      exact Or.inr ⟨l.fromNode, l.toNode, p, t, rfl⟩
    · rw [if_neg hcond] at hc; simp at hc

theorem flowFixConstr_no_opn (i j p : String) (t : Int) (d : String) :
    (flowFixConstr i j p t).mentionsVar (Var.opn d) = false := by
  refine mentionsVar_eq_false _ _ (fun cv hcv => ?_)
    (fun cv hcv => by simp [flowFixConstr] at hcv)
  simp only [flowFixConstr, List.mem_singleton] at hcv
  subst hcv; simp

theorem opnFixConstr_mentions (n d : String) :
    (opnFixConstr n).mentionsVar (Var.opn d) = true ↔ n = d := by
  simp [opnFixConstr, Constr.mentionsVar, Aff.mentionsVar, Var.opn.injEq]

/-! ### A concrete scenario, used to witness the theorems -/

/-- A placeholder distance function (the haversine utility is external and
trigonometric; every theorem below is uniform in it). -/
def dz : ℚ → ℚ → ℚ → ℚ → ℚ := fun _ _ _ _ => 0

/-- Supplier → plant → two DCs → customer. -/
def exNodes : List Node :=
  [ { id := "S1", type := "Supplier", lat := 0, lon := 0 },
    { id := "P1", type := "Plant", lat := 1, lon := 1, varCost := some 2,
      cap := some 50 },
    { id := "D1", type := "DC", lat := 2, lon := 2, fixedCost := some 100 },
    { id := "D2", type := "DC", lat := 3, lon := 3, fixedCost := some 80 },
    { id := "C1", type := "Customer", lat := 4, lon := 4 } ]

def exRawLanes : List RawLane :=
  [ { fromNode := "S1", toNode := "P1", cost := some 1, transit := some 1 },
    { fromNode := "P1", toNode := "D1", cost := some 1, transit := some 1 },
    { fromNode := "D1", toNode := "C1", cost := some 1, transit := some 2 },
    { fromNode := "P1", toNode := "D2", cost := some 1, transit := some 1 },
    { fromNode := "D2", toNode := "C1", cost := some 1, transit := some 1 } ]

def exProducts : List Product := [ { id := "W" } ]

def exDemand : List DemandRow :=
  [ { customerID := "C1", productID := "W", period := 1, demandLbs := 0 } ]

/-- The scenario's build, with `D2` forced closed. -/
def exBuild : Except String (Formulation × VarDicts) :=
  build_model dz exNodes exDemand exRawLanes exProducts 7 (1 / 10) 0 ["D2"]

/-- Project an `ok` build result (dummy on `error`; every use below is on an
`ok` value). -/
def getMV (e : Except String (Formulation × VarDicts)) : Formulation × VarDicts :=
  match e with
  | Except.ok mv => mv
  | Except.error _ => (⟨⟨[], 0⟩, []⟩, ⟨[], [], [], []⟩)

def exMV : Formulation × VarDicts := getMV exBuild

/-! ### The claims -/

/-- C1: in every formulation returned by `build_model`, the binary `open[d]`
variables enter the model only through the DC fixed-cost term of the
objective and through the forced-shutdown constraints; no flow, capacity or
other constraint references `open[d]`, so for every DC `d` not in the
forced-closed set, no constraint mentions `open[d]` at all. -/
theorem C1_open_only_in_fixed_cost_and_shutdown
    (distf : ℚ → ℚ → ℚ → ℚ → ℚ) (nodes : List Node) (demand : List DemandRow)
    (rawLanes : List RawLane) (products : List Product)
    (service_days safety_stock_pct carbon_price : ℚ) (shut_nodes : List String)
    (mv : Formulation × VarDicts)
    (h : build_model distf nodes demand rawLanes products service_days
      safety_stock_pct carbon_price shut_nodes = Except.ok mv) :
    (∀ c ∈ mv.1.constraints, ∀ d : String,
        c.mentionsVar (Var.opn d) = true →
        c = opnFixConstr d ∧ d ∈ shut_nodes ∧ d ∈ dcIds nodes) ∧
    (∀ cv ∈ mv.1.objective.terms, ∀ d : String,
        cv.2 = Var.opn d → cv.1 = node_fixed nodes d) ∧
    (∀ d : String, d ∉ shut_nodes →
        ∀ c ∈ mv.1.constraints, c.mentionsVar (Var.opn d) = false) := by
  obtain ⟨tc, dm, svc, bm, htc, hdm, hsvc, hbm, hobj, hcons, -⟩ :=
    build_model_ok_decomp distf nodes demand rawLanes products service_days
      safety_stock_pct carbon_price shut_nodes mv h
  have main : ∀ c ∈ mv.1.constraints, ∀ d : String,
      c.mentionsVar (Var.opn d) = true →
      c = opnFixConstr d ∧ d ∈ shut_nodes ∧ d ∈ dcIds nodes := by
    intro c hc d hm
    rw [hcons] at hc
    simp only [List.mem_append] at hc
    rcases hc with ((((hc | hc) | hc) | hc) | hc) | hc
    · rcases shutdownConstrs_shape _ _ _ _ _ _ hc with ⟨n, hn, hdc, rfl⟩ | ⟨i, j, p, t, rfl⟩
      · obtain rfl := (opnFixConstr_mentions n d).mp hm
        exact ⟨rfl, (mem_dedupFirst _ _).mp hn, hdc⟩
      · rw [flowFixConstr_no_opn i j p t d] at hm; exact absurd hm (by simp)
    · rw [capacityConstrs_no_opn _ _ _ _ _ _ _ _ hc d] at hm
      exact absurd hm (by simp)
    · rw [demandConstrs_no_opn _ _ _ _ _ _ hdm _ hc d] at hm
      exact absurd hm (by simp)
    · rw [serviceConstrs_no_opn _ _ _ _ _ _ _ hsvc _ hc d] at hm
      exact absurd hm (by simp)
    · rw [massConstrs_no_opn _ _ _ _ _ _ _ hc d] at hm
      exact absurd hm (by simp)
    · rw [bomConstrs_no_opn _ _ _ _ _ hbm _ hc d] at hm
      exact absurd hm (by simp)
  refine ⟨main, ?_, ?_⟩
  · intro cv hcv d heq
    rw [hobj] at hcv
    simp only [List.mem_append] at hcv
    rcases hcv with ((((hcv | hcv) | hcv) | hcv) | hcv) | hcv
    · exact absurd heq (prodCostTerms_no_opn _ _ _ _ _ hcv d)
    · obtain ⟨d2, -, rfl⟩ := whFixedTerms_shape _ _ _ hcv
      simp only [Var.opn.injEq] at heq
      rw [heq]
    · exact absurd heq (whHoldTerms_no_opn _ _ _ _ _ _ hcv d)
    · exact absurd heq (transCostTerms_no_opn _ _ _ _ htc _ hcv d)
    · exact absurd heq (dutyCostTerms_no_opn _ _ _ _ hcv d)
    · exact absurd heq (carbonCostTerms_no_opn _ _ _ _ _ hcv d)
  · intro d hd c hc
    cases hm : c.mentionsVar (Var.opn d) with
    | false => rfl
    | true => exact absurd (main c hc d hm).2.1 hd

/-- Witness for C1 on the concrete scenario. -/
theorem C1_witness :
    (∀ c ∈ exMV.1.constraints, ∀ d : String,
        c.mentionsVar (Var.opn d) = true →
        c = opnFixConstr d ∧ d ∈ ["D2"] ∧ d ∈ dcIds exNodes) ∧
    (∀ cv ∈ exMV.1.objective.terms, ∀ d : String,
        cv.2 = Var.opn d → cv.1 = node_fixed exNodes d) ∧
    (∀ d : String, d ∉ ["D2"] →
        ∀ c ∈ exMV.1.constraints, c.mentionsVar (Var.opn d) = false) :=
  C1_open_only_in_fixed_cost_and_shutdown dz exNodes exDemand exRawLanes
    exProducts 7 (1 / 10) 0 ["D2"] exMV rfl

/-- C10: the safety-stock fraction parameter is accepted but never read:
two runs differing only in `safety_stock_pct` build identical formulations
and extract identical results. -/
theorem C10_safety_stock_pct_has_no_effect
    (solver : Formulation → String × (Var → Option ℚ))
    (distf : ℚ → ℚ → ℚ → ℚ → ℚ) (nodes : List Node) (demand : List DemandRow)
    (rawLanes : List RawLane) (products : List Product)
    (service_days s1 s2 carbon_price : ℚ) (shut_nodes : List String) :
    build_model distf nodes demand rawLanes products service_days s1
        carbon_price shut_nodes =
      build_model distf nodes demand rawLanes products service_days s2
        carbon_price shut_nodes ∧
    solve_and_extract solver distf nodes demand rawLanes products service_days
        s1 carbon_price shut_nodes =
      solve_and_extract solver distf nodes demand rawLanes products
        service_days s2 carbon_price shut_nodes :=
  ⟨rfl, rfl⟩

/-- C9: on any solver status other than `Optimal`, `solve_and_extract`
returns only the status with no result object. -/
theorem C9_non_optimal_returns_status_only
    (solver : Formulation → String × (Var → Option ℚ))
    (distf : ℚ → ℚ → ℚ → ℚ → ℚ) (nodes : List Node) (demand : List DemandRow)
    (rawLanes : List RawLane) (products : List Product)
    (service_days safety_stock_pct carbon_price : ℚ) (shut_nodes : List String)
    (mv : Formulation × VarDicts)
    (h : build_model distf nodes demand rawLanes products service_days
      safety_stock_pct carbon_price shut_nodes = Except.ok mv)
    (st : String) (vals : Var → Option ℚ)
    (hs : solver mv.1 = (st, vals)) (hne : st ≠ "Optimal") :
    solve_and_extract solver distf nodes demand rawLanes products service_days
      safety_stock_pct carbon_price shut_nodes = Except.ok (st, none) := by
  unfold solve_and_extract
  rw [h]
  dsimp only
  rw [hs]
  dsimp only
  rw [if_neg hne]

/-- A solver oracle that always reports infeasibility. -/
def solverInf : Formulation → String × (Var → Option ℚ) :=
  fun _ => ("Infeasible", fun _ => none)

/-- Witness for C9 on the concrete scenario. -/
theorem C9_witness :
    solve_and_extract solverInf dz exNodes exDemand exRawLanes exProducts 7
      (1 / 10) 0 ["D2"] = Except.ok ("Infeasible", none) :=
  C9_non_optimal_returns_status_only solverInf dz exNodes exDemand exRawLanes
    exProducts 7 (1 / 10) 0 ["D2"] exMV rfl "Infeasible" (fun _ => none) rfl
    (by decide)

/-- Node table for the C3 counterexample: the single node `A`. -/
def c3Nodes : List Node := [ { id := "A", type := "Supplier", lat := 0, lon := 0 } ]

/-- Lane table for the C3 counterexample: one lane whose destination `B` is
absent from the node table. -/
def c3RawLanes : List RawLane :=
  [ { fromNode := "A", toNode := "B", cost := some 1, transit := some 1 } ]

/-- Counterexample to C3: a lane referencing the unknown node `B` is not
rejected — `prep_lanes` succeeds and silently drops it (pandas inner merge),
returning an empty enriched table. -/
theorem C3_cex :
    prep_lanes c3Nodes c3RawLanes dz = [] ∧ c3RawLanes.length = 1 :=
  ⟨rfl, rfl⟩

/-- C3 amended: lane preprocessing never fails; a lane whose origin or
destination id is absent from the node table is silently dropped, so the
enriched table never references an id missing from the node table and only
contains lanes whose two endpoints are both present in it. -/
theorem C3_amended_missing_endpoint_dropped (nodes : List Node)
    (rawLanes : List RawLane) (distf : ℚ → ℚ → ℚ → ℚ → ℚ) (x : String)
    (hx : ∀ n ∈ nodes, n.id ≠ x) :
    (∀ e ∈ prep_lanes nodes rawLanes distf,
      e.fromNode ≠ x ∧ e.toNode ≠ x) ∧
    (∀ e ∈ prep_lanes nodes rawLanes distf,
      (∃ n ∈ nodes, n.id = e.fromNode) ∧ (∃ n ∈ nodes, n.id = e.toNode)) := by
  have hres : ∀ e ∈ prep_lanes nodes rawLanes distf,
      (∃ n ∈ nodes, n.id = e.fromNode) ∧ (∃ n ∈ nodes, n.id = e.toNode) := by
    intro e he
    simp only [prep_lanes, List.mem_filterMap] at he
    obtain ⟨r, -, hf⟩ := he
    cases hfr : nodes.find? (fun n => n.id == r.fromNode) with
    | none => rw [hfr] at hf; exact absurd hf (by simp)
    | some nf =>
      cases hto : nodes.find? (fun n => n.id == r.toNode) with
      | none => rw [hfr, hto] at hf; exact absurd hf (by simp)
      | some nt =>
        rw [hfr, hto] at hf
        simp only [Option.some.injEq] at hf
        subst hf
        have hnf : nf.id = r.fromNode := by
          have := List.find?_some hfr
          simpa using this
        have hnt : nt.id = r.toNode := by
          have := List.find?_some hto
          simpa using this
        exact ⟨⟨nf, List.mem_of_find?_eq_some hfr, hnf⟩,
          ⟨nt, List.mem_of_find?_eq_some hto, hnt⟩⟩
  refine ⟨?_, hres⟩
  intro e he
  obtain ⟨⟨nf, hnfm, hnfid⟩, ⟨nt, hntm, hntid⟩⟩ := hres e he
  exact ⟨fun hcon => hx nf hnfm (hnfid.trans hcon),
    fun hcon => hx nt hntm (hntid.trans hcon)⟩

/-- Node table for the C4 counterexample. -/
def c4Nodes : List Node :=
  [ { id := "A", type := "Supplier", lat := 0, lon := 0 },
    { id := "B", type := "DC", lat := 1, lon := 1 } ]

/-- A lane from `A` to `B`, listed twice. -/
def c4Lane : RawLane :=
  { fromNode := "A", toNode := "B", cost := some 1, transit := some 1 }

/-- Witness for the amended C3: no lane surviving preprocessing of the
`A → B` lane references the missing id `Z`, and every surviving lane keeps
both endpoints inside the node table. -/
theorem C3_amended_witness :
    (∀ e ∈ prep_lanes c4Nodes [c4Lane] dz,
      e.fromNode ≠ "Z" ∧ e.toNode ≠ "Z") ∧
    (∀ e ∈ prep_lanes c4Nodes [c4Lane] dz,
      (∃ n ∈ c4Nodes, n.id = e.fromNode) ∧
      (∃ n ∈ c4Nodes, n.id = e.toNode)) :=
  C3_amended_missing_endpoint_dropped c4Nodes [c4Lane] dz "Z" (by decide)

/-- Counterexample to C4: a duplicated `(origin, destination)` pair is not
rejected — `prep_lanes` returns two enriched rows with the same key. -/
theorem C4_cex :
    (prep_lanes c4Nodes [c4Lane, c4Lane] dz).map laneKey =
      [("A", "B"), ("A", "B")] :=
  rfl

/-- C4 amended: preprocessing performs no duplicate check — every raw lane
whose two endpoints exist in the node table yields its own enriched row,
duplicates included. -/
theorem C4_amended_duplicates_kept (nodes : List Node)
    (rawLanes : List RawLane) (distf : ℚ → ℚ → ℚ → ℚ → ℚ) :
    (prep_lanes nodes rawLanes distf).length =
      (rawLanes.filter fun r =>
        (nodes.any fun n => n.id == r.fromNode) &&
        (nodes.any fun n => n.id == r.toNode)).length := by
  induction rawLanes with
  | nil => rfl
  | cons r rs ih =>
    simp only [prep_lanes, List.filterMap_cons, List.filter_cons] at ih ⊢
    cases hfr : nodes.find? (fun n => n.id == r.fromNode) with
    | none =>
      have hany : (nodes.any fun n => n.id == r.fromNode) = false := by
        rw [← Bool.not_eq_true, List.any_eq_true]
        rintro ⟨n, hn, hid⟩
        have : (nodes.find? (fun n => n.id == r.fromNode)).isSome :=
          List.find?_isSome.mpr ⟨n, hn, hid⟩
        rw [hfr] at this
        simp at this
      rw [hany]
      simpa using ih
    | some nf =>
      have hany : (nodes.any fun n => n.id == r.fromNode) = true :=
        List.any_eq_true.mpr
          ⟨nf, List.mem_of_find?_eq_some hfr, by simpa using List.find?_some hfr⟩
      rw [hany]
      cases hto : nodes.find? (fun n => n.id == r.toNode) with
      | none =>
        have hany2 : (nodes.any fun n => n.id == r.toNode) = false := by
          rw [← Bool.not_eq_true, List.any_eq_true]
          rintro ⟨n, hn, hid⟩
          have : (nodes.find? (fun n => n.id == r.toNode)).isSome :=
            List.find?_isSome.mpr ⟨n, hn, hid⟩
          rw [hto] at this
          simp at this
        rw [hany2]
        simpa using ih
      | some nt =>
        have hany2 : (nodes.any fun n => n.id == r.toNode) = true :=
          List.any_eq_true.mpr
            ⟨nt, List.mem_of_find?_eq_some hto, by simpa using List.find?_some hto⟩
        rw [hany2]
        simpa using ih

/-- Positive direction of the capacity block: a present, nonzero capacity
yields the inbound-flow bound for every period. -/
theorem capacityConstrs_mem (nodes : List Node) (N : List String)
    (lanes : List Lane) (PLT DCl P : List String) (T : List Int) (n : String)
    (cap : ℚ) (t : Int) (hn : n ∈ PLT ++ DCl)
    (hcap : node_cap nodes n = some cap) (hnz : cap ≠ 0) (ht : t ∈ T) :
    (⟨⟨capInboundTerms N lanes n P t, 0⟩, Rel.le, ⟨[], cap⟩⟩ : Constr) ∈
      capacityConstrs nodes N lanes PLT DCl P T := by
  simp only [capacityConstrs, List.mem_flatMap]
  refine ⟨n, hn, ?_⟩
  rw [hcap]
  dsimp only
  rw [if_pos hnz]
  exact List.mem_map.mpr ⟨t, ht, rfl⟩

/-- The capacity block is generated by exactly the nodes whose capacity is
present and nonzero: the `if cap:` guard skips both an absent and a zero
capacity, so filtering the node list by that truthiness test reproduces the
block. -/
theorem capacityConstrs_filter_eq (nodes : List Node) (N : List String)
    (lanes : List Lane) (PLT DCl P : List String) (T : List Int) :
    capacityConstrs nodes N lanes PLT DCl P T =
      (((PLT ++ DCl).filter fun n =>
          match node_cap nodes n with
          | some c => decide (c ≠ 0)
          | none => false).flatMap fun n =>
        T.map fun t =>
          (⟨⟨capInboundTerms N lanes n P t, 0⟩, Rel.le,
            ⟨[], (node_cap nodes n).getD 0⟩⟩ : Constr)) := by
  unfold capacityConstrs
  generalize PLT ++ DCl = ns
  induction ns with
  | nil => rfl
  | cons a as ih =>
    rw [List.flatMap_cons, List.filter_cons]
    cases hfa : node_cap nodes a with
    | none =>
      simp only [hfa, List.nil_append, Bool.false_eq_true, if_false]
      exact ih
    | some c =>
      by_cases hz : c ≠ 0
      · simp only [hfa, decide_eq_true_eq, if_pos hz, List.flatMap_cons,
          Option.getD_some]
        rw [ih]
      · simp only [hfa, if_neg hz, List.nil_append, decide_eq_true_eq]
        exact ih

/-- C5 amended: in a successful build the capacity block is generated by
exactly the plant/DC nodes whose `Cap_Lbs_Per_Period` is present and
nonzero — `if cap:` is falsy both for an absent and for a zero capacity, so
such nodes receive no constraint; every constraint of the block is in the
formulation, and every present, nonzero capacity yields the inbound bound
for every period. -/
theorem C5_amended_capacity_only_nonzero
    (distf : ℚ → ℚ → ℚ → ℚ → ℚ) (nodes : List Node) (demand : List DemandRow)
    (rawLanes : List RawLane) (products : List Product)
    (service_days safety_stock_pct carbon_price : ℚ) (shut_nodes : List String)
    (mv : Formulation × VarDicts)
    (h : build_model distf nodes demand rawLanes products service_days
      safety_stock_pct carbon_price shut_nodes = Except.ok mv) :
    capacityConstrs nodes (nodeIds nodes) (prep_lanes nodes rawLanes distf)
        (plantIds nodes) (dcIds nodes) (productIds products)
        (periods demand) =
      (((plantIds nodes ++ dcIds nodes).filter fun n =>
          match node_cap nodes n with
          | some c => decide (c ≠ 0)
          | none => false).flatMap fun n =>
        (periods demand).map fun t =>
          (⟨⟨capInboundTerms (nodeIds nodes) (prep_lanes nodes rawLanes distf)
              n (productIds products) t, 0⟩, Rel.le,
            ⟨[], (node_cap nodes n).getD 0⟩⟩ : Constr)) ∧
    (∀ c ∈ capacityConstrs nodes (nodeIds nodes)
        (prep_lanes nodes rawLanes distf) (plantIds nodes) (dcIds nodes)
        (productIds products) (periods demand), c ∈ mv.1.constraints) ∧
    (∀ n ∈ plantIds nodes ++ dcIds nodes, ∀ cap : ℚ,
      node_cap nodes n = some cap → cap ≠ 0 → ∀ t ∈ periods demand,
      (⟨⟨capInboundTerms (nodeIds nodes) (prep_lanes nodes rawLanes distf) n
          (productIds products) t, 0⟩, Rel.le, ⟨[], cap⟩⟩ : Constr) ∈
        mv.1.constraints) := by
  obtain ⟨tc, dm, svc, bm, -, -, -, -, -, hcons, -⟩ :=
    build_model_ok_decomp distf nodes demand rawLanes products service_days
      safety_stock_pct carbon_price shut_nodes mv h
  have hblock : ∀ c ∈ capacityConstrs nodes (nodeIds nodes)
      (prep_lanes nodes rawLanes distf) (plantIds nodes) (dcIds nodes)
      (productIds products) (periods demand), c ∈ mv.1.constraints := by
    intro c hc
    rw [hcons]
    simp only [List.mem_append]
    exact Or.inl (Or.inl (Or.inl (Or.inl (Or.inr hc))))
  refine ⟨capacityConstrs_filter_eq nodes (nodeIds nodes)
    (prep_lanes nodes rawLanes distf) (plantIds nodes) (dcIds nodes)
    (productIds products) (periods demand), hblock, ?_⟩
  intro n hn cap hcap hnz t ht
  exact hblock _ (capacityConstrs_mem nodes (nodeIds nodes)
    (prep_lanes nodes rawLanes distf) (plantIds nodes) (dcIds nodes)
    (productIds products) (periods demand) n cap t hn hcap hnz ht)

/-- Witness for the amended C5 at the running example: the characterization
of the capacity block holds there, the block sits inside the formulation,
and in particular the plant `P1` (capacity 50) receives its inbound bound. -/
theorem C5_amended_witness :
    (capacityConstrs exNodes (nodeIds exNodes)
        (prep_lanes exNodes exRawLanes dz) (plantIds exNodes) (dcIds exNodes)
        (productIds exProducts) (periods exDemand) =
      (((plantIds exNodes ++ dcIds exNodes).filter fun n =>
          match node_cap exNodes n with
          | some c => decide (c ≠ 0)
          | none => false).flatMap fun n =>
        (periods exDemand).map fun t =>
          (⟨⟨capInboundTerms (nodeIds exNodes)
              (prep_lanes exNodes exRawLanes dz) n (productIds exProducts) t,
              0⟩, Rel.le,
            ⟨[], (node_cap exNodes n).getD 0⟩⟩ : Constr))) ∧
    (∀ c ∈ capacityConstrs exNodes (nodeIds exNodes)
        (prep_lanes exNodes exRawLanes dz) (plantIds exNodes) (dcIds exNodes)
        (productIds exProducts) (periods exDemand), c ∈ exMV.1.constraints) ∧
    (∀ n ∈ plantIds exNodes ++ dcIds exNodes, ∀ cap : ℚ,
      node_cap exNodes n = some cap → cap ≠ 0 → ∀ t ∈ periods exDemand,
      (⟨⟨capInboundTerms (nodeIds exNodes) (prep_lanes exNodes exRawLanes dz)
          n (productIds exProducts) t, 0⟩, Rel.le, ⟨[], cap⟩⟩ : Constr) ∈
        exMV.1.constraints) :=
  C5_amended_capacity_only_nonzero dz exNodes exDemand exRawLanes exProducts
    7 (1 / 10) 0 ["D2"] exMV rfl

/-- Node table for the C5 counterexample: the DC `D1` has a defined capacity
of zero. -/
def c5Nodes : List Node :=
  [ { id := "S1", type := "Supplier", lat := 0, lon := 0 },
    { id := "D1", type := "DC", lat := 1, lon := 1, cap := some 0 },
    { id := "C1", type := "Customer", lat := 2, lon := 2 } ]

def c5RawLanes : List RawLane :=
  [ { fromNode := "S1", toNode := "D1", cost := some 1, transit := some 1 },
    { fromNode := "D1", toNode := "C1", cost := some 1, transit := some 1 } ]

def c5Demand : List DemandRow :=
  [ { customerID := "C1", productID := "W", period := 1, demandLbs := 10 } ]

def c5Build : Except String (Formulation × VarDicts) :=
  build_model dz c5Nodes c5Demand c5RawLanes exProducts 7 (1 / 10) 0 []

/-- Counterexample to C5: `D1` has the defined capacity value 0, the build
succeeds, yet the formulation does not contain the claimed inbound-capacity
constraint (total inbound flow into `D1` ≤ 0) for the scenario's only
period.  (`if cap:` is false for a zero capacity.) -/
theorem C5_cex :
    node_cap c5Nodes "D1" = some 0 ∧
    exceptOk c5Build = true ∧
    (⟨⟨capInboundTerms (nodeIds c5Nodes) (prep_lanes c5Nodes c5RawLanes dz)
        "D1" (productIds exProducts) 1, 0⟩, Rel.le, ⟨[], 0⟩⟩ : Constr) ∉
      (getMV c5Build).1.constraints := by
  refine ⟨by decide, by decide, by decide⟩

/-- The enrichment step changes no rate fields: every enriched lane carries
the `cost`/`transit` cells of a raw lane. -/
theorem prep_lanes_fields (nodes : List Node) (rawLanes : List RawLane)
    (distf : ℚ → ℚ → ℚ → ℚ → ℚ) (l : Lane)
    (hl : l ∈ prep_lanes nodes rawLanes distf) :
    ∃ r ∈ rawLanes, l.cost = r.cost ∧ l.transit = r.transit := by
  simp only [prep_lanes, List.mem_filterMap] at hl
  obtain ⟨r, hr, hf⟩ := hl
  cases hfr : nodes.find? (fun n => n.id == r.fromNode) with
  | none => rw [hfr] at hf; exact absurd hf (by simp)
  | some nf =>
    cases hto : nodes.find? (fun n => n.id == r.toNode) with
    | none => rw [hfr, hto] at hf; exact absurd hf (by simp)
    | some nt =>
      rw [hfr, hto] at hf
      simp only [Option.some.injEq] at hf
      subst hf
      exact ⟨r, hr, rfl, rfl⟩

theorem mem_insertInt (x a : Int) (l : List Int) :
    x ∈ insertInt a l ↔ x = a ∨ x ∈ l := by
  induction l with
  | nil => simp [insertInt]
  | cons y ys ih =>
    simp only [insertInt]
    by_cases hle : a ≤ y
    · rw [if_pos hle]; simp
    · rw [if_neg hle]
      simp only [List.mem_cons, ih]
      tauto

theorem mem_sortInts (x : Int) (l : List Int) : x ∈ sortInts l ↔ x ∈ l := by
  induction l with
  | nil => simp [sortInts]
  | cons a as ih =>
    simp only [sortInts, mem_insertInt, ih, List.mem_cons]

/-- Every demand row's period is in `T` (by construction of `T`). -/
theorem periods_mem (demand : List DemandRow) (r : DemandRow)
    (hr : r ∈ demand) : r.period ∈ periods demand := by
  unfold periods
  rw [mem_sortInts, mem_dedupFirst]
  exact List.mem_map.mpr ⟨r, hr, rfl⟩

theorem hasLane_iff (lanes : List Lane) (i j : String) :
    hasLane lanes i j = true ↔ ∃ l ∈ lanes, l.fromNode = i ∧ l.toNode = j := by
  unfold hasLane
  rw [List.any_eq_true]
  constructor
  · rintro ⟨l, hl, hb⟩
    simp only [Bool.and_eq_true, beq_iff_eq] at hb
    exact ⟨l, hl, hb⟩
  · rintro ⟨l, hl, h1, h2⟩
    exact ⟨l, hl, by simp [h1, h2]⟩

theorem laneRows_key (lanes : List Lane) (i j : String) (l : Lane)
    (hl : l ∈ laneRows lanes i j) :
    l ∈ lanes ∧ l.fromNode = i ∧ l.toNode = j := by
  unfold laneRows at hl
  rw [List.mem_filter] at hl
  obtain ⟨h1, h2⟩ := hl
  simp only [Bool.and_eq_true, beq_iff_eq] at h2
  exact ⟨h1, h2⟩

/-- With pairwise-distinct lane keys, a present key selects exactly one
row. -/
theorem laneRows_singleton (lanes : List Lane) (i j : String)
    (hnd : (lanes.map laneKey).Nodup) (hhas : hasLane lanes i j = true) :
    ∃ l, laneRows lanes i j = [l] := by
  cases hrows : laneRows lanes i j with
  | nil =>
    obtain ⟨l, hl, h1, h2⟩ := (hasLane_iff lanes i j).mp hhas
    have hmem : l ∈ laneRows lanes i j := by
      unfold laneRows
      rw [List.mem_filter]
      exact ⟨hl, by simp [h1, h2]⟩
    rw [hrows] at hmem
    simp at hmem
  | cons l rest =>
    cases rest with
    | nil => exact ⟨l, rfl⟩
    | cons l2 rest2 =>
      exfalso
      have hsub : (laneRows lanes i j).Sublist lanes := List.filter_sublist _
      have hnd2 : ((laneRows lanes i j).map laneKey).Nodup :=
        hnd.sublist (hsub.map laneKey)
      rw [hrows] at hnd2
      have hk1 : laneKey l = (i, j) := by
        have hlk := laneRows_key lanes i j l
          (by rw [hrows]; exact List.mem_cons_self _ _)
        simp [laneKey, hlk.2.1, hlk.2.2]
      have hk2 : laneKey l2 = (i, j) := by
        have hlk := laneRows_key lanes i j l2
          (by rw [hrows]; exact List.mem_cons_of_mem _ (List.mem_cons_self _ _))
        simp [laneKey, hlk.2.1, hlk.2.2]
      simp only [List.map_cons, List.nodup_cons, List.mem_cons] at hnd2
      exact hnd2.1 (Or.inl (hk1.trans hk2.symm))

/-- A unique key with a present cell makes `.loc` succeed. -/
theorem laneLoc_of_singleton (lanes : List Lane) (i j : String)
    (field : Lane → Option ℚ) (missing : String) (l : Lane) (q : ℚ)
    (hrows : laneRows lanes i j = [l]) (hfield : field l = some q) :
    laneLoc lanes i j field missing = Except.ok q := by
  unfold laneLoc
  rw [hrows]
  dsimp only
  rw [hfield]

/-- C2 amended: `build_model` performs no input validation and no
`InvalidScenario` exists anywhere.  `service_days ≤ 0` and demand rows whose
customer has no surviving inbound lane (in particular an unknown customer
id) cause no failure at all.  The failures the builder does have are raw
lookup errors, not `InvalidScenario`: a missing required rate column, a
duplicated lane key (pandas `.loc` yields a Series where a scalar is
expected), a demand product id absent from the product table when its
customer has an inbound lane, and a BOM parent id absent from the product
table.  When none of those lookups is broken — rate cells present, lane
keys pairwise distinct, demand products known (or the customer laneless),
BOM parents known — the build succeeds for arbitrary `service_days` and
unknown demand customer ids, and the formulation is handed to the solver. -/
theorem C2_amended_no_validation
    (distf : ℚ → ℚ → ℚ → ℚ → ℚ) (nodes : List Node) (demand : List DemandRow)
    (rawLanes : List RawLane) (products : List Product)
    (service_days safety_stock_pct carbon_price : ℚ) (shut_nodes : List String)
    (hcols : ∀ r ∈ rawLanes, r.cost.isSome = true ∧ r.transit.isSome = true)
    (hnd : ((prep_lanes nodes rawLanes distf).map laneKey).Nodup)
    (hprod : ∀ r ∈ demand,
      r.productID ∈ productIds products ∨
      ((nodeIds nodes).filter fun i =>
        hasLane (prep_lanes nodes rawLanes distf) i r.customerID) = [])
    (hbom : ∀ pr ∈ products, pr.bomComponent.all
      (fun parent => decide (parent ∈ productIds products)) = true) :
    exceptOk (build_model distf nodes demand rawLanes products service_days
      safety_stock_pct carbon_price shut_nodes) = true := by
  have hlanes : ∀ l ∈ prep_lanes nodes rawLanes distf,
      l.cost.isSome = true ∧ l.transit.isSome = true := by
    intro l hl
    obtain ⟨r, hr, hc, ht⟩ := prep_lanes_fields nodes rawLanes distf l hl
    rw [hc, ht]
    exact hcols r hr
  obtain ⟨tc, htc⟩ : ∃ tc,
      transCostTerms (prep_lanes nodes rawLanes distf) (productIds products)
        (periods demand) = Except.ok tc := by
    apply mapME_ok_of_forall
    intro kpt hkpt
    have hkey : ∃ l0 ∈ prep_lanes nodes rawLanes distf, laneKey l0 = kpt.1 := by
      simp only [List.mem_flatMap, List.mem_map] at hkpt
      obtain ⟨ij, hij, p, -, t, -, heq⟩ := hkpt
      obtain ⟨l0, hl0, rfl⟩ := hij
      exact ⟨l0, hl0, by rw [← heq]⟩
    obtain ⟨l0, hl0, hk⟩ := hkey
    have hhas : hasLane (prep_lanes nodes rawLanes distf) kpt.1.1 kpt.1.2 = true := by
      refine (hasLane_iff _ _ _).mpr ⟨l0, hl0, ?_, ?_⟩ <;> rw [← hk] <;> rfl
    obtain ⟨l, hrows⟩ :=
      laneRows_singleton (prep_lanes nodes rawLanes distf) kpt.1.1 kpt.1.2 hnd hhas
    have hlmem : l ∈ prep_lanes nodes rawLanes distf :=
      (laneRows_key _ _ _ l (by rw [hrows]; exact List.mem_cons_self _ _)).1
    obtain ⟨hc, -⟩ := hlanes l hlmem
    cases hcost : l.cost with
    | none => rw [hcost] at hc; exact absurd hc (by simp)
    | some c =>
      exact ⟨(c * l.dist, Var.flow kpt.1.1 kpt.1.2 kpt.2.1 kpt.2.2), by
        rw [laneLoc_of_singleton (prep_lanes nodes rawLanes distf) kpt.1.1
          kpt.1.2 (fun l2 => l2.cost) "KeyError: Cost_per_lb_mi" l c hrows
          hcost]
        rw [laneLoc_of_singleton (prep_lanes nodes rawLanes distf) kpt.1.1
          kpt.1.2 (fun l2 => some l2.dist) "KeyError: Dist_mi" l l.dist hrows
          rfl]⟩
  obtain ⟨dm, hdm⟩ : ∃ dm,
      demandConstrs (nodeIds nodes) (prep_lanes nodes rawLanes distf)
        (productIds products) (periods demand) demand = Except.ok dm := by
    apply mapME_ok_of_forall
    intro r hr
    rcases hprod r hr with hp | hempty
    · obtain ⟨ts, hts⟩ : ∃ ts,
          mapME
            (fun i =>
              match flowLookup (prep_lanes nodes rawLanes distf)
                  (productIds products) (periods demand) i r.customerID
                  r.productID r.period with
              | Except.ok v => Except.ok ((1 : ℚ), v)
              | Except.error e => Except.error e)
            ((nodeIds nodes).filter fun i =>
              hasLane (prep_lanes nodes rawLanes distf) i r.customerID) =
            Except.ok ts := by
        apply mapME_ok_of_forall
        intro i hi
        have hhas := (List.mem_filter.mp hi).2
        have hfl : flowLookup (prep_lanes nodes rawLanes distf)
            (productIds products) (periods demand) i r.customerID r.productID
            r.period = Except.ok (Var.flow i r.customerID r.productID r.period) := by
          unfold flowLookup
          rw [if_pos ⟨hhas, hp, periods_mem demand r hr⟩]
        exact ⟨_, by rw [hfl]⟩
      exact ⟨_, by rw [hts]⟩
    · exact ⟨_, by rw [hempty]; rfl⟩
  obtain ⟨svc, hsvc⟩ : ∃ svc,
      serviceConstrs (nodeIds nodes) (prep_lanes nodes rawLanes distf)
        (productIds products) (periods demand) demand service_days =
        Except.ok svc := by
    apply mapME_ok_of_forall
    intro r hr
    rcases hprod r hr with hp | hempty
    · obtain ⟨ts, hts⟩ : ∃ ts,
          mapME
            (fun i =>
              match flowLookup (prep_lanes nodes rawLanes distf)
                  (productIds products) (periods demand) i r.customerID
                  r.productID r.period with
              | Except.error e => Except.error e
              | Except.ok v =>
                match laneTransit (prep_lanes nodes rawLanes distf) i
                    r.customerID with
                | Except.ok tr => Except.ok (tr, v)
                | Except.error e => Except.error e)
            ((nodeIds nodes).filter fun i =>
              hasLane (prep_lanes nodes rawLanes distf) i r.customerID) =
            Except.ok ts := by
        apply mapME_ok_of_forall
        intro i hi
        have hhas := (List.mem_filter.mp hi).2
        have hfl : flowLookup (prep_lanes nodes rawLanes distf)
            (productIds products) (periods demand) i r.customerID r.productID
            r.period = Except.ok (Var.flow i r.customerID r.productID r.period) := by
          unfold flowLookup
          rw [if_pos ⟨hhas, hp, periods_mem demand r hr⟩]
        obtain ⟨l, hrows⟩ :=
          laneRows_singleton (prep_lanes nodes rawLanes distf) i r.customerID
            hnd hhas
        have hlmem : l ∈ prep_lanes nodes rawLanes distf :=
          (laneRows_key _ _ _ l (by rw [hrows]; exact List.mem_cons_self _ _)).1
        obtain ⟨-, htr⟩ := hlanes l hlmem
        cases htrv : l.transit with
        | none => rw [htrv] at htr; exact absurd htr (by simp)
        | some tr =>
          have hlt : laneTransit (prep_lanes nodes rawLanes distf) i
              r.customerID = Except.ok tr := by
            unfold laneTransit
            exact laneLoc_of_singleton (prep_lanes nodes rawLanes distf) i
              r.customerID (fun l2 => l2.transit) "KeyError: TransitDays" l tr
              hrows htrv
          exact ⟨_, by rw [hfl, hlt]⟩
      exact ⟨_, by rw [hts]⟩
    · exact ⟨_, by rw [hempty]; rfl⟩
  obtain ⟨bm, hbm⟩ : ∃ bm,
      bomConstrs products (plantIds nodes) (productIds products)
        (periods demand) = Except.ok bm := by
    apply mapME_ok_of_forall
    intro x hx
    simp only [List.mem_flatMap] at hx
    obtain ⟨comp, hcomp, hx2⟩ := hx
    cases hb : comp.bomComponent with
    | none => rw [hb] at hx2; simp at hx2
    | some parent =>
      rw [hb] at hx2
      simp only [List.mem_flatMap, List.mem_map] at hx2
      obtain ⟨pl, hpl, t, ht, heq⟩ := hx2
      have hpar : parent ∈ productIds products := by
        have hba := hbom comp hcomp
        rw [hb] at hba
        simpa [Option.all] using hba
      have hmk : makeLookup (plantIds nodes) (productIds products)
          (periods demand) x.2.2.1 x.2.1 x.2.2.2 =
          Except.ok (Var.make x.2.2.1 x.2.1 x.2.2.2) := by
        rw [← heq]
        unfold makeLookup
        rw [if_pos ⟨hpl, hpar, ht⟩]
      exact ⟨_, by rw [hmk]⟩
  unfold build_model
  dsimp only
  rw [htc, hdm, hsvc, hbm]
  rfl

/-- Witness for the amended C2: the concrete scenario has all rate cells,
distinct lane keys, known demand products, and no BOM rows, so its build
succeeds. -/
theorem C2_amended_witness :
    exceptOk (build_model dz exNodes exDemand exRawLanes exProducts 7 (1 / 10)
      0 ["D2"]) = true :=
  C2_amended_no_validation dz exNodes exDemand exRawLanes exProducts 7 (1 / 10)
    0 ["D2"] (by decide) (by decide) (by decide) (by decide)

/-- A demand table referencing a customer id and a product id that exist
nowhere in the node/product tables. -/
def c2Demand : List DemandRow :=
  [ { customerID := "ZZZ", productID := "QQ", period := 1, demandLbs := 5 } ]

/-- Counterexample to C2: with `service_days = 0` and a demand row naming the
unknown customer `ZZZ` and unknown product `QQ`, `build_model` raises no
`InvalidScenario` (no such error exists anywhere in the code) — the build
succeeds, and the formulation is handed to the solver, which runs. -/
theorem C2_cex :
    exceptOk (build_model dz exNodes c2Demand exRawLanes exProducts 0 (1 / 10)
      0 []) = true ∧
    solve_and_extract solverInf dz exNodes c2Demand exRawLanes exProducts 0
      (1 / 10) 0 [] = Except.ok ("Infeasible", none) :=
  ⟨by decide, rfl⟩

theorem evalTerms_append (σ : Var → ℚ) (ts1 ts2 : List (ℚ × Var)) :
    evalTerms σ (ts1 ++ ts2) = evalTerms σ ts1 + evalTerms σ ts2 := by
  simp [evalTerms]

theorem evalTerms_single (σ : Var → ℚ) (c : ℚ) (v : Var) :
    evalTerms σ [(c, v)] = c * σ v := by
  simp [evalTerms]

theorem evalTerms_nil (σ : Var → ℚ) : evalTerms σ [] = 0 := rfl

/-- Positive direction of the mass-balance block. -/
theorem massConstrs_mem (N : List String) (lanes : List Lane)
    (DCl PLT P : List String) (T : List Int) (n p : String) (tit : Nat × Int)
    (hn : n ∈ DCl ++ PLT) (hp : p ∈ P) (ht : tit ∈ enumFrom 0 T) :
    massConstr N lanes PLT n p T tit.1 tit.2 ∈
      massConstrs N lanes DCl PLT P T := by
  simp only [massConstrs, List.mem_flatMap, List.mem_map]
  exact ⟨n, hn, p, hp, tit, ht, rfl⟩

/-- C7: for every plant/DC node, product, and enumerated period, the
formulation contains the mass-balance equality
`inflow + inv_prev == outflow (+ make for plants) + inv`, and consequently
every assignment satisfying the constraints balances the books at that
node/product/period. -/
theorem C7_mass_balance
    (distf : ℚ → ℚ → ℚ → ℚ → ℚ) (nodes : List Node) (demand : List DemandRow)
    (rawLanes : List RawLane) (products : List Product)
    (service_days safety_stock_pct carbon_price : ℚ) (shut_nodes : List String)
    (mv : Formulation × VarDicts)
    (h : build_model distf nodes demand rawLanes products service_days
      safety_stock_pct carbon_price shut_nodes = Except.ok mv)
    (n : String) (hn : n ∈ dcIds nodes ++ plantIds nodes) (p : String)
    (hp : p ∈ productIds products) (tit : Nat × Int)
    (ht : tit ∈ enumFrom 0 (periods demand)) :
    massConstr (nodeIds nodes) (prep_lanes nodes rawLanes distf)
      (plantIds nodes) n p (periods demand) tit.1 tit.2 ∈ mv.1.constraints ∧
    (∀ σ : Var → ℚ, (∀ c ∈ mv.1.constraints, c.holdsB σ = true) →
      evalTerms σ (inflowTerms (nodeIds nodes) (prep_lanes nodes rawLanes distf) n p tit.2) +
        (if tit.1 = 0 then 0
         else σ (Var.inv n p ((periods demand).getD (tit.1 - 1) 0))) =
      evalTerms σ (outflowTerms (nodeIds nodes) (prep_lanes nodes rawLanes distf) n p tit.2) +
        (if n ∈ plantIds nodes then σ (Var.make n p tit.2) else 0) +
        σ (Var.inv n p tit.2)) := by
  obtain ⟨tc, dm, svc, bm, -, -, -, -, -, hcons, -⟩ :=
    build_model_ok_decomp distf nodes demand rawLanes products service_days
      safety_stock_pct carbon_price shut_nodes mv h
  have hmem : massConstr (nodeIds nodes) (prep_lanes nodes rawLanes distf)
      (plantIds nodes) n p (periods demand) tit.1 tit.2 ∈ mv.1.constraints := by
    rw [hcons]
    simp only [List.mem_append]
    exact Or.inl (Or.inr (massConstrs_mem (nodeIds nodes)
      (prep_lanes nodes rawLanes distf) (dcIds nodes) (plantIds nodes)
      (productIds products) (periods demand) n p tit hn hp ht))
  refine ⟨hmem, ?_⟩
  intro σ hσ
  have hh := hσ _ hmem
  simp only [massConstr, Constr.holdsB, Aff.evalA, decide_eq_true_eq] at hh
  rw [evalTerms_append, evalTerms_append, evalTerms_append] at hh
  by_cases h0 : tit.1 = 0
  · rw [if_pos h0] at hh ⊢
    by_cases hplt : n ∈ plantIds nodes
    · rw [if_pos hplt] at hh ⊢
      rw [evalTerms_single, evalTerms_single] at hh
      simp only [evalTerms_nil] at hh
      simp only [evalTerms] at hh ⊢
      linarith
    · rw [if_neg hplt] at hh ⊢
      rw [evalTerms_single] at hh
      simp only [evalTerms_nil] at hh
      simp only [evalTerms] at hh ⊢
      linarith
  · rw [if_neg h0] at hh ⊢
    by_cases hplt : n ∈ plantIds nodes
    · rw [if_pos hplt] at hh ⊢
      rw [evalTerms_single, evalTerms_single, evalTerms_single] at hh
      simp only [evalTerms] at hh ⊢
      linarith
    · rw [if_neg hplt] at hh ⊢
      rw [evalTerms_single, evalTerms_single] at hh
      simp only [evalTerms, List.map_nil, List.sum_nil] at hh
      simp only [evalTerms] at hh ⊢
      linarith

/-- Witness for C7: the mass-balance row of DC `D1`, product `W`, first
period of the concrete scenario. -/
theorem C7_witness :
    massConstr (nodeIds exNodes) (prep_lanes exNodes exRawLanes dz)
      (plantIds exNodes) "D1" "W" (periods exDemand) 0 1 ∈
        exMV.1.constraints ∧
    (∀ σ : Var → ℚ, (∀ c ∈ exMV.1.constraints, c.holdsB σ = true) →
      evalTerms σ (inflowTerms (nodeIds exNodes)
          (prep_lanes exNodes exRawLanes dz) "D1" "W" 1) +
        (if (0 : Nat) = 0 then 0
         else σ (Var.inv "D1" "W" ((periods exDemand).getD (0 - 1) 0))) =
      evalTerms σ (outflowTerms (nodeIds exNodes)
          (prep_lanes exNodes exRawLanes dz) "D1" "W" 1) +
        (if "D1" ∈ plantIds exNodes then σ (Var.make "D1" "W" 1) else 0) +
        σ (Var.inv "D1" "W" 1)) :=
  C7_mass_balance dz exNodes exDemand exRawLanes exProducts 7 (1 / 10) 0
    ["D2"] exMV rfl "D1" (by decide) "W" (by decide) (0, 1) (by decide)

/-- Decomposing a successful extraction on an `Optimal` solve. -/
theorem solve_extract_optimal_decomp
    (solver : Formulation → String × (Var → Option ℚ))
    (distf : ℚ → ℚ → ℚ → ℚ → ℚ) (nodes : List Node) (demand : List DemandRow)
    (rawLanes : List RawLane) (products : List Product)
    (service_days safety_stock_pct carbon_price : ℚ) (shut_nodes : List String)
    (mv : Formulation × VarDicts)
    (h : build_model distf nodes demand rawLanes products service_days
      safety_stock_pct carbon_price shut_nodes = Except.ok mv)
    (vals : Var → Option ℚ) (hs : solver mv.1 = ("Optimal", vals))
    (out : String × Option ExtractResult)
    (hout : solve_and_extract solver distf nodes demand rawLanes products
      service_days safety_stock_pct carbon_price shut_nodes = Except.ok out) :
    ∃ od obj, out = ("Optimal", some ⟨flowRows vals mv.2.flow, od, obj⟩) := by
  unfold solve_and_extract at hout
  rw [h] at hout
  dsimp only at hout
  rw [hs] at hout
  dsimp only at hout
  rw [if_pos rfl] at hout
  split at hout
  · exact absurd hout (by simp)
  · split at hout
    · exact absurd hout (by simp)
    · rename_i x1 od hod x2 obj hobj
      simp only [Except.ok.injEq] at hout
      exact ⟨od, obj, hout.symm⟩

/-- C8: a flow record appears in the extracted flow table exactly when its
variable is a key of the flow dictionary, its solved value is defined, and
that value is strictly greater than `1e-6`; undefined or `≤ 1e-6` values are
absent. -/
theorem C8_flow_negligibility_filter
    (solver : Formulation → String × (Var → Option ℚ))
    (distf : ℚ → ℚ → ℚ → ℚ → ℚ) (nodes : List Node) (demand : List DemandRow)
    (rawLanes : List RawLane) (products : List Product)
    (service_days safety_stock_pct carbon_price : ℚ) (shut_nodes : List String)
    (mv : Formulation × VarDicts)
    (h : build_model distf nodes demand rawLanes products service_days
      safety_stock_pct carbon_price shut_nodes = Except.ok mv)
    (vals : Var → Option ℚ) (hs : solver mv.1 = ("Optimal", vals))
    (res : ExtractResult)
    (hres : solve_and_extract solver distf nodes demand rawLanes products
      service_days safety_stock_pct carbon_price shut_nodes =
      Except.ok ("Optimal", some res)) :
    ∀ (i j p : String) (t : Int) (v : ℚ),
      (⟨i, j, p, t, v⟩ : FlowRow) ∈ res.flow ↔
        ((i, j, p, t) ∈ mv.2.flow ∧ vals (Var.flow i j p t) = some v ∧
          v > 1 / 1000000) := by
  obtain ⟨od, obj, hout⟩ := solve_extract_optimal_decomp solver distf nodes
    demand rawLanes products service_days safety_stock_pct carbon_price
    shut_nodes mv h vals hs _ hres
  simp only [Prod.mk.injEq, Option.some.injEq] at hout
  have hflow : res.flow = flowRows vals mv.2.flow := by rw [hout.2]
  rw [hflow]
  intro i j p t v
  constructor
  · intro hmem
    simp only [flowRows, List.mem_filterMap] at hmem
    obtain ⟨⟨ki, kj, kp, kt⟩, hk, hf⟩ := hmem
    dsimp only at hf
    cases hv : vals (Var.flow ki kj kp kt) with
    | none => rw [hv] at hf; exact absurd hf (by simp)
    | some w =>
      rw [hv] at hf
      dsimp only at hf
      by_cases hcond : w ≠ 0 ∧ w > 1 / 1000000
      · rw [if_pos hcond] at hf
        simp only [Option.some.injEq, FlowRow.mk.injEq] at hf
        obtain ⟨h1, h2, h3, h4, h5⟩ := hf
        subst h1; subst h2; subst h3; subst h4; subst h5
        exact ⟨hk, hv, hcond.2⟩
      · rw [if_neg hcond] at hf; exact absurd hf (by simp)
  · rintro ⟨hk, hv, hgt⟩
    have hne : v ≠ 0 := ne_of_gt (lt_trans (by norm_num) hgt)
    simp only [flowRows, List.mem_filterMap]
    refine ⟨(i, j, p, t), hk, ?_⟩
    dsimp only
    rw [hv]
    dsimp only
    rw [if_pos ⟨hne, hgt⟩]

/-- A solver oracle assigning value 5 to every variable. -/
def exSolver : Formulation → String × (Var → Option ℚ) :=
  fun _ => ("Optimal", fun _ => some 5)

/-- Project the result out of a successful optimal run (dummy otherwise). -/
def getRes (e : Except String (String × Option ExtractResult)) : ExtractResult :=
  match e with
  | Except.ok (_, some r) => r
  | _ => ⟨[], [], 0⟩

def c8Res : ExtractResult :=
  getRes (solve_and_extract exSolver dz exNodes exDemand exRawLanes exProducts
    7 (1 / 10) 0 ["D2"])

/-- Witness for C8 on the concrete scenario, under the all-5 oracle, at the
lane `S1 → P1`. -/
theorem C8_witness :
    (⟨"S1", "P1", "W", 1, 5⟩ : FlowRow) ∈ c8Res.flow ↔
      (("S1", "P1", "W", (1 : Int)) ∈ exMV.2.flow ∧
        (fun _ => some (5 : ℚ)) (Var.flow "S1" "P1" "W" 1) = some 5 ∧
        (5 : ℚ) > 1 / 1000000) :=
  C8_flow_negligibility_filter exSolver dz exNodes exDemand exRawLanes
    exProducts 7 (1 / 10) 0 ["D2"] exMV rfl (fun _ => some 5) rfl c8Res rfl
    "S1" "P1" "W" 1 5

theorem mapME_congr_pure {α β : Type} (f : α → Except String β) (g : α → β)
    (hf : ∀ x, f x = Except.ok (g x)) :
    ∀ l : List α, mapME f l = Except.ok (l.map g) := by
  intro l
  induction l with
  | nil => rfl
  | cons a as ih => simp [mapME, hf a, ih]

theorem filterME_congr_pure {α : Type} (f : α → Except String Bool)
    (g : α → Bool) (hf : ∀ x, f x = Except.ok (g x)) :
    ∀ l : List α, filterME f l = Except.ok (l.filter g) := by
  intro l
  induction l with
  | nil => rfl
  | cons a as ih =>
    simp only [filterME, hf a, ih, List.filter_cons]

/-- `pulp.value` under a total assignment. -/
theorem affValue_total (σ : Var → ℚ) (a : Aff) :
    affValue (fun v => some (σ v)) a =
      Except.ok ((a.terms.map fun cv => cv.1 * σ cv.2).sum + a.const) := by
  unfold affValue
  rw [mapME_congr_pure _ (fun cv : ℚ × Var => cv.1 * σ cv.2) (fun x => rfl)
    a.terms]

/-- A fully-valued `Optimal` solve extracts without error: the flow table is
the filtered rows, the open list the `> 0.5` filter, the objective the
evaluated expression. -/
theorem solve_extract_total
    (solver : Formulation → String × (Var → Option ℚ))
    (distf : ℚ → ℚ → ℚ → ℚ → ℚ) (nodes : List Node) (demand : List DemandRow)
    (rawLanes : List RawLane) (products : List Product)
    (service_days safety_stock_pct carbon_price : ℚ) (shut_nodes : List String)
    (mv : Formulation × VarDicts) (σ : Var → ℚ)
    (h : build_model distf nodes demand rawLanes products service_days
      safety_stock_pct carbon_price shut_nodes = Except.ok mv)
    (hs : solver mv.1 = ("Optimal", fun v => some (σ v))) :
    solve_and_extract solver distf nodes demand rawLanes products service_days
        safety_stock_pct carbon_price shut_nodes =
      Except.ok ("Optimal", some
        ⟨flowRows (fun v => some (σ v)) mv.2.flow,
         mv.2.opn.filter fun d => decide (σ (Var.opn d) > 1 / 2),
         (mv.1.objective.terms.map fun cv => cv.1 * σ cv.2).sum +
           mv.1.objective.const⟩) := by
  unfold solve_and_extract
  rw [h]
  dsimp only
  rw [hs]
  dsimp only
  rw [if_pos rfl]
  rw [filterME_congr_pure _ (fun d => decide (σ (Var.opn d) > 1 / 2))
    (fun d => rfl) mv.2.opn]
  dsimp only
  rw [affValue_total σ mv.1.objective]

/-- Positive membership in the shutdown block: the `open`-fixing row. -/
theorem shutdownConstrs_mem_opn (DCl : List String) (lanes : List Lane)
    (P : List String) (T : List Int) (shut : List String) (n : String)
    (hn : n ∈ shut) (hdc : n ∈ DCl) :
    opnFixConstr n ∈ shutdownConstrs DCl lanes P T shut := by
  simp only [shutdownConstrs, List.mem_flatMap]
  refine ⟨n, hn, List.mem_append_left _ ?_⟩
  rw [if_pos hdc]
  exact List.mem_singleton.mpr rfl

/-- Positive membership in the shutdown block: the flow-fixing rows. -/
theorem shutdownConstrs_mem_flow (DCl : List String) (lanes : List Lane)
    (P : List String) (T : List Int) (shut : List String) (n : String)
    (l : Lane) (hn : n ∈ shut) (hl : l ∈ lanes)
    (hcond : l.fromNode = n ∨ l.toNode = n) (p : String) (hp : p ∈ P)
    (t : Int) (ht : t ∈ T) :
    flowFixConstr l.fromNode l.toNode p t ∈
      shutdownConstrs DCl lanes P T shut := by
  simp only [shutdownConstrs, List.mem_flatMap]
  refine ⟨n, hn, List.mem_append_right _ ?_⟩
  simp only [List.mem_flatMap]
  refine ⟨l, hl, ?_⟩
  have hb : (l.fromNode == n || l.toNode == n) = true := by
    rcases hcond with hc | hc <;> simp [hc]
  rw [if_pos hb]
  simp only [List.mem_flatMap, List.mem_map]
  exact ⟨p, hp, t, ht, rfl⟩

theorem opnFix_holds (σ : Var → ℚ) (n : String)
    (h : (opnFixConstr n).holdsB σ = true) : σ (Var.opn n) = 0 := by
  simp only [opnFixConstr, Constr.holdsB, Aff.evalA, evalTerms, List.map_cons,
    List.map_nil, List.sum_cons, List.sum_nil, decide_eq_true_eq] at h
  linarith

theorem flowFix_holds (σ : Var → ℚ) (i j p : String) (t : Int)
    (h : (flowFixConstr i j p t).holdsB σ = true) :
    σ (Var.flow i j p t) = 0 := by
  simp only [flowFixConstr, Constr.holdsB, Aff.evalA, evalTerms, List.map_cons,
    List.map_nil, List.sum_cons, List.sum_nil, decide_eq_true_eq] at h
  linarith

/-- Every flow-dictionary key comes from some enriched lane, with product and
period drawn from `P`/`T`. -/
theorem flowVarKeys_shape (lanes : List Lane) (P : List String)
    (T : List Int) (k : String × String × String × Int)
    (hk : k ∈ flowVarKeys lanes P T) :
    ∃ l ∈ lanes, l.fromNode = k.1 ∧ l.toNode = k.2.1 ∧ k.2.2.1 ∈ P ∧
      k.2.2.2 ∈ T := by
  simp only [flowVarKeys, List.mem_flatMap, List.mem_map] at hk
  obtain ⟨ij, hij, p, hp, t, ht, heq⟩ := hk
  rw [mem_dedupFirst] at hij
  simp only [List.mem_map] at hij
  obtain ⟨l, hl, rfl⟩ := hij
  rw [← heq]
  exact ⟨l, hl, rfl, rfl, hp, ht⟩

/-- C6: forced-closed nodes.  (a) For every node in the forced-closed set,
its `open` variable (when a DC) is fixed to 0 and every lane touching it is
fixed to zero flow for all products and periods.  (b) Consequently, for any
assignment satisfying the constraints, the extracted result has no flow
record touching a forced-closed node, and no forced-closed node appears in
`open_dc`. -/
theorem C6_forced_shutdown
    (distf : ℚ → ℚ → ℚ → ℚ → ℚ) (nodes : List Node) (demand : List DemandRow)
    (rawLanes : List RawLane) (products : List Product)
    (service_days safety_stock_pct carbon_price : ℚ) (shut_nodes : List String)
    (mv : Formulation × VarDicts)
    (h : build_model distf nodes demand rawLanes products service_days
      safety_stock_pct carbon_price shut_nodes = Except.ok mv) :
    (∀ n ∈ shut_nodes,
      (n ∈ dcIds nodes → opnFixConstr n ∈ mv.1.constraints) ∧
      (∀ l ∈ prep_lanes nodes rawLanes distf,
        l.fromNode = n ∨ l.toNode = n →
        ∀ p ∈ productIds products, ∀ t ∈ periods demand,
          flowFixConstr l.fromNode l.toNode p t ∈ mv.1.constraints)) ∧
    (∀ (σ : Var → ℚ) (solver : Formulation → String × (Var → Option ℚ)),
      (∀ c ∈ mv.1.constraints, c.holdsB σ = true) →
      solver mv.1 = ("Optimal", fun v => some (σ v)) →
      ∃ res, solve_and_extract solver distf nodes demand rawLanes products
          service_days safety_stock_pct carbon_price shut_nodes =
          Except.ok ("Optimal", some res) ∧
        (∀ row ∈ res.flow, row.From ∉ shut_nodes ∧ row.To ∉ shut_nodes) ∧
        (∀ d ∈ shut_nodes, d ∉ res.open_dc)) := by
  obtain ⟨tc, dm, svc, bm, -, -, -, -, -, hcons, hvd⟩ :=
    build_model_ok_decomp distf nodes demand rawLanes products service_days
      safety_stock_pct carbon_price shut_nodes mv h
  have hshut : ∀ c, c ∈ shutdownConstrs (dcIds nodes)
      (prep_lanes nodes rawLanes distf) (productIds products) (periods demand)
      (dedupFirst shut_nodes) → c ∈ mv.1.constraints := by
    intro c hc
    rw [hcons]
    simp only [List.mem_append]
    exact Or.inl (Or.inl (Or.inl (Or.inl (Or.inl hc))))
  have partA : ∀ n ∈ shut_nodes,
      (n ∈ dcIds nodes → opnFixConstr n ∈ mv.1.constraints) ∧
      (∀ l ∈ prep_lanes nodes rawLanes distf,
        l.fromNode = n ∨ l.toNode = n →
        ∀ p ∈ productIds products, ∀ t ∈ periods demand,
          flowFixConstr l.fromNode l.toNode p t ∈ mv.1.constraints) := by
    intro n hn
    have hn2 : n ∈ dedupFirst shut_nodes := (mem_dedupFirst _ _).mpr hn
    constructor
    · intro hdc
      exact hshut _ (shutdownConstrs_mem_opn _ _ _ _ _ n hn2 hdc)
    · intro l hl hcond p hp t ht
      exact hshut _ (shutdownConstrs_mem_flow _ _ _ _ _ n l hn2 hl hcond p hp
        t ht)
  refine ⟨partA, ?_⟩
  intro σ solver hσ hs
  refine ⟨_, solve_extract_total solver distf nodes demand rawLanes products
    service_days safety_stock_pct carbon_price shut_nodes mv σ h hs, ?_, ?_⟩
  · intro row hrow
    simp only [flowRows, List.mem_filterMap] at hrow
    obtain ⟨⟨ki, kj, kp, kt⟩, hk, hf⟩ := hrow
    dsimp only at hf
    by_cases hcond : σ (Var.flow ki kj kp kt) ≠ 0 ∧
        σ (Var.flow ki kj kp kt) > 1 / 1000000
    · rw [if_pos hcond] at hf
      simp only [Option.some.injEq] at hf
      have hk2 : (ki, kj, kp, kt) ∈
          flowVarKeys (prep_lanes nodes rawLanes distf) (productIds products)
            (periods demand) := by
        have : mv.2.flow = flowVarKeys (prep_lanes nodes rawLanes distf)
            (productIds products) (periods demand) := by rw [hvd]
        rw [← this]
        exact hk
      obtain ⟨l, hl, hfr, hto, hp, ht⟩ :=
        flowVarKeys_shape _ _ _ _ hk2
      have hzero : ∀ n ∈ shut_nodes, ki ≠ n ∧ kj ≠ n := by
        intro n hn
        constructor <;> intro hcon
        · have hfix := (partA n hn).2 l hl (Or.inl (by rw [hfr, hcon])) kp hp
            kt ht
          have := flowFix_holds σ l.fromNode l.toNode kp kt (hσ _ hfix)
          rw [hfr, hto] at this
          exact hcond.1 this
        · have hfix := (partA n hn).2 l hl (Or.inr (by rw [hto, hcon])) kp hp
            kt ht
          have := flowFix_holds σ l.fromNode l.toNode kp kt (hσ _ hfix)
          rw [hfr, hto] at this
          exact hcond.1 this
      rw [← hf]
      exact ⟨fun hin => (hzero _ hin).1 rfl, fun hin => (hzero _ hin).2 rfl⟩
    · rw [if_neg hcond] at hf
      exact absurd hf (by simp)
  · intro d hd hmem
    simp only [List.mem_filter, decide_eq_true_eq] at hmem
    obtain ⟨hddc, hgt⟩ := hmem
    have hddc2 : d ∈ dcIds nodes := by
      have : mv.2.opn = dcIds nodes := by rw [hvd]
      rw [← this]
      exact hddc
    have hfix := (partA d hd).1 hddc2
    have hzero := opnFix_holds σ d (hσ _ hfix)
    rw [hzero] at hgt
    norm_num at hgt

/-- A solver oracle valuing every variable at 0. -/
def c6Solver : Formulation → String × (Var → Option ℚ) :=
  fun _ => ("Optimal", fun _ => some 0)

theorem evalTerms_zero (ts : List (ℚ × Var)) :
    evalTerms (fun _ => 0) ts = 0 := by
  induction ts with
  | nil => rfl
  | cons a as ih =>
    have hstep : evalTerms (fun _ => 0) (a :: as) =
        a.1 * 0 + evalTerms (fun _ => 0) as := by
      simp [evalTerms]
    rw [hstep, ih, mul_zero, add_zero]

/-- Shape of a capacity constraint. -/
theorem capacityConstrs_shape (nodes : List Node) (N : List String)
    (lanes : List Lane) (PLT DCl P : List String) (T : List Int) (c : Constr)
    (h : c ∈ capacityConstrs nodes N lanes PLT DCl P T) :
    ∃ n cap t, node_cap nodes n = some cap ∧
      c = ⟨⟨capInboundTerms N lanes n P t, 0⟩, Rel.le, ⟨[], cap⟩⟩ := by
  simp only [capacityConstrs, List.mem_flatMap] at h
  obtain ⟨n, -, hc⟩ := h
  cases hcap : node_cap nodes n with
  | none => rw [hcap] at hc; simp at hc
  | some cap =>
    rw [hcap] at hc
    dsimp only at hc
    by_cases hz : cap ≠ 0
    · rw [if_pos hz] at hc
      simp only [List.mem_map] at hc
      obtain ⟨t, -, rfl⟩ := hc
      exact ⟨n, cap, t, hcap, rfl⟩
    · rw [if_neg hz] at hc; simp at hc

/-- Shape of a demand-fulfilment constraint. -/
theorem demandConstrs_shape (N : List String) (lanes : List Lane)
    (P : List String) (T : List Int) (demand : List DemandRow)
    (dm : List Constr) (h : demandConstrs N lanes P T demand = Except.ok dm)
    (c : Constr) (hc : c ∈ dm) :
    ∃ r ∈ demand, ∃ terms,
      c = ⟨⟨terms, 0⟩, Rel.ge, ⟨[], r.demandLbs⟩⟩ := by
  obtain ⟨r, hr, hf⟩ := mapME_ok_mem _ _ _ h c hc
  cases hterms : mapME
      (fun i =>
        match flowLookup lanes P T i r.customerID r.productID r.period with
        | Except.ok v => Except.ok ((1 : ℚ), v)
        | Except.error e => Except.error e)
      (N.filter fun i => hasLane lanes i r.customerID) with
  | error e => rw [hterms] at hf; exact absurd hf (by simp)
  | ok terms =>
    rw [hterms] at hf
    simp only [Except.ok.injEq] at hf
    exact ⟨r, hr, terms, hf.symm⟩

/-- Shape of a service-time constraint. -/
theorem serviceConstrs_shape (N : List String) (lanes : List Lane)
    (P : List String) (T : List Int) (demand : List DemandRow)
    (service_days : ℚ) (svc : List Constr)
    (h : serviceConstrs N lanes P T demand service_days = Except.ok svc)
    (c : Constr) (hc : c ∈ svc) :
    ∃ r ∈ demand, ∃ terms,
      c = ⟨⟨terms, 0⟩, Rel.le, ⟨[], r.demandLbs * service_days⟩⟩ := by
  obtain ⟨r, hr, hf⟩ := mapME_ok_mem _ _ _ h c hc
  cases hterms : mapME
      (fun i =>
        match flowLookup lanes P T i r.customerID r.productID r.period with
        | Except.error e => Except.error e
        | Except.ok v =>
          match laneTransit lanes i r.customerID with
          | Except.ok tr => Except.ok (tr, v)
          | Except.error e => Except.error e)
      (N.filter fun i => hasLane lanes i r.customerID) with
  | error e => rw [hterms] at hf; exact absurd hf (by simp)
  | ok terms =>
    rw [hterms] at hf
    simp only [Except.ok.injEq] at hf
    exact ⟨r, hr, terms, hf.symm⟩

/-- Shape of a BOM constraint. -/
theorem bomConstrs_shape (products : List Product) (PLT P : List String)
    (T : List Int) (bm : List Constr)
    (h : bomConstrs products PLT P T = Except.ok bm) (c : Constr)
    (hc : c ∈ bm) :
    ∃ ratio v1 v2,
      c = ⟨⟨[(ratio, v1)], 0⟩, Rel.ge, ⟨[((1 : ℚ), v2)], 0⟩⟩ := by
  obtain ⟨x, -, hf⟩ := mapME_ok_mem _ _ _ h c hc
  cases hmk : makeLookup PLT P T x.2.2.1 x.2.1 x.2.2.2 with
  | error e => rw [hmk] at hf; exact absurd hf (by simp)
  | ok vparent =>
    rw [hmk] at hf
    simp only [Except.ok.injEq] at hf
    exact ⟨x.1.ratio, vparent, Var.make x.2.2.1 x.1.id x.2.2.2, hf.symm⟩

/-- The all-zero assignment satisfies every constraint of a built model as
soon as every demand is ≤ 0 (and stays so after scaling by the service-day
bound) and every defined capacity is nonnegative. -/
theorem zeroSig_holds
    (distf : ℚ → ℚ → ℚ → ℚ → ℚ) (nodes : List Node) (demand : List DemandRow)
    (rawLanes : List RawLane) (products : List Product)
    (service_days safety_stock_pct carbon_price : ℚ) (shut_nodes : List String)
    (mv : Formulation × VarDicts)
    (h : build_model distf nodes demand rawLanes products service_days
      safety_stock_pct carbon_price shut_nodes = Except.ok mv)
    (hdem : ∀ r ∈ demand, r.demandLbs ≤ 0)
    (hsd : ∀ r ∈ demand, 0 ≤ r.demandLbs * service_days)
    (hcap : ∀ nd ∈ nodes, ∀ cap : ℚ, nd.cap = some cap → 0 ≤ cap) :
    ∀ c ∈ mv.1.constraints, c.holdsB (fun _ => 0) = true := by
  obtain ⟨tc, dm, svc, bm, -, hdm, hsvc, hbm, -, hcons, -⟩ :=
    build_model_ok_decomp distf nodes demand rawLanes products service_days
      safety_stock_pct carbon_price shut_nodes mv h
  intro c hc
  rw [hcons] at hc
  simp only [List.mem_append] at hc
  rcases hc with ((((hc | hc) | hc) | hc) | hc) | hc
  · rcases shutdownConstrs_shape _ _ _ _ _ _ hc with ⟨n, -, -, rfl⟩ |
      ⟨i, j, p, t, rfl⟩
    · simp [opnFixConstr, Constr.holdsB, Aff.evalA, evalTerms_zero]
    · simp [flowFixConstr, Constr.holdsB, Aff.evalA, evalTerms_zero]
  · obtain ⟨n, cap, t, hncap, rfl⟩ := capacityConstrs_shape _ _ _ _ _ _ _ _ hc
    have hcap2 : 0 ≤ cap := by
      unfold node_cap at hncap
      cases hf : nodes.find? (fun nd => nd.id == n) with
      | none => rw [hf] at hncap; exact absurd hncap (by simp)
      | some nd =>
        rw [hf] at hncap
        exact hcap nd (List.mem_of_find?_eq_some hf) cap hncap
    simp [Constr.holdsB, Aff.evalA, evalTerms_zero, hcap2]
  · obtain ⟨r, hr, terms, rfl⟩ := demandConstrs_shape _ _ _ _ _ _ hdm _ hc
    simp [Constr.holdsB, Aff.evalA, evalTerms_zero, hdem r hr]
  · obtain ⟨r, hr, terms, rfl⟩ := serviceConstrs_shape _ _ _ _ _ _ _ hsvc _ hc
    simp [Constr.holdsB, Aff.evalA, evalTerms_zero, hsd r hr]
  · simp only [massConstrs, List.mem_flatMap, List.mem_map] at hc
    obtain ⟨n, -, p, -, tit, -, rfl⟩ := hc
    simp [massConstr, Constr.holdsB, Aff.evalA, evalTerms_zero]
  · obtain ⟨ratio, v1, v2, rfl⟩ := bomConstrs_shape _ _ _ _ _ hbm _ hc
    simp [Constr.holdsB, Aff.evalA, evalTerms_zero]

/-- Witness for C6: the all-zero assignment satisfies the concrete
scenario's constraints, and the extraction under it touches no forced-closed
node. -/
theorem C6_witness :
    ∃ res, solve_and_extract c6Solver dz exNodes exDemand exRawLanes
        exProducts 7 (1 / 10) 0 ["D2"] = Except.ok ("Optimal", some res) ∧
      (∀ row ∈ res.flow, row.From ∉ ["D2"] ∧ row.To ∉ ["D2"]) ∧
      (∀ d ∈ ["D2"], d ∉ res.open_dc) :=
  (C6_forced_shutdown dz exNodes exDemand exRawLanes exProducts 7 (1 / 10) 0
    ["D2"] exMV rfl).2 (fun _ => 0) c6Solver
    (zeroSig_holds dz exNodes exDemand exRawLanes exProducts 7 (1 / 10) 0
      ["D2"] exMV rfl
      (by intro r hr; simp only [exDemand, List.mem_singleton] at hr
          subst hr; norm_num)
      (by intro r hr; simp only [exDemand, List.mem_singleton] at hr
          subst hr; norm_num)
      (by intro nd hnd cap hcap
          simp only [exNodes, List.mem_cons, List.not_mem_nil, or_false]
            at hnd
          rcases hnd with rfl | rfl | rfl | rfl | rfl
          · exact absurd hcap (by simp)
          · have h50 : (50 : ℚ) = cap := by simpa using hcap
            rw [← h50]
            norm_num
          · exact absurd hcap (by simp)
          · exact absurd hcap (by simp)
          · exact absurd hcap (by simp)))
    rfl

end Chariot
